import Mathlib

/-!
Verification of the reactive-state core of `textual-reactive`
(`src/textual_reactive/`): value cells (`state.py`), derivations and reducer
hooks (`hooks.py`), the effect registry (`effects.py`), the context
provider/consumer protocol (`context.py`) and stores (`store.py`).

The Python code is shallowly embedded: Python values are modelled by the
first-order universe `PyVal` (integers, strings, `None`, pydantic models,
dicts produced by `model_dump`, and function objects identified by an index
into an environment of unary callables).  Mutable `State` objects live in a
`Heap`, addressed by index; closures (updaters, selectors, reducers, watcher
callbacks) are indices into an `Env` of semantic functions.  An operation
that can raise returns its exception in the `error` field of an `Outcome`
while keeping every heap mutation performed before the raise, exactly as
Python exceptions do.
-/

/-- A primitive (non-container, non-callable) Python value used as a model
field or a plain cell value. -/
inductive Prim where
  | pint : Int → Prim
  | pstr : String → Prim
  | pnone : Prim
  deriving DecidableEq, Repr

/-- The universe of Python values exercised by the library: primitives,
pydantic model instances (`vmodel className fields`), plain dicts (the shape
returned by `model_dump`), and function objects.  A function object is
identified by an index into `Env.fns`; equality of indices models Python's
identity-based function equality. -/
inductive PyVal where
  | prim : Prim → PyVal
  | vmodel : String → List (String × Prim) → PyVal
  | vdict : List (String × Prim) → PyVal
  | vfun : Nat → PyVal
  deriving DecidableEq, Repr

/-- Python `callable(v)` for our value universe. -/
def isCallable : PyVal → Bool
  | .vfun _ => true
  | _ => false

/-- Dictionary field lookup (Python `d[k]` on a field map without duplicate
keys). -/
def lookupField (k : String) : List (String × Prim) → Option Prim
  | [] => none
  | (k', v) :: rest => if k' = k then some v else lookupField k rest

/-- One inclusion of Python dict equality: every field of `fs` is present in
`gs` with an equal value. -/
def fieldsLe (fs gs : List (String × Prim)) : Bool :=
  fs.all fun kv => lookupField kv.1 gs = some kv.2

/-- Python `==` on dicts / field maps: same keys, equal values,
order-insensitive. -/
def dictEq (fs gs : List (String × Prim)) : Bool :=
  fieldsLe fs gs && fieldsLe gs fs

/-- Python `==` on our value universe.  Pydantic models compare by class and
field map; functions compare by identity; mixed constructors compare
unequal. -/
def pyEq : PyVal → PyVal → Bool
  | .prim a, .prim b => a = b
  | .vmodel c fs, .vmodel c' gs => c = c' && dictEq fs gs
  | .vdict fs, .vdict gs => dictEq fs gs
  | .vfun k, .vfun m => k = m
  | _, _ => false

/-- The equality gate of `State._set_value` (state.py lines 102–107): when
both the old and the new value are pydantic models they are compared by
`model_dump()` (normalised field maps, ignoring the model class); otherwise
by Python `==`. -/
def dumpEqCheck (old new : PyVal) : Bool :=
  match old, new with
  | .vmodel _ fs, .vmodel _ gs => dictEq fs gs
  | o, n => pyEq o n

/-- Python exceptions raised by the embedded code. -/
inductive PyErr where
  | valueError : String → PyErr
  | nameError : String → PyErr
  | runtimeError : String → PyErr
  | contextNotFound : Option String → String → PyErr
  | recursionError : PyErr
  | userError : Nat → PyErr
  deriving DecidableEq, Repr

/-- A watcher callback registered on a cell.  `ext k` is an arbitrary
external callback (identified by `k`); `meth w m` is the bound-method wrapper
installed by `connect_effects` / `connect_store_effects` for method `m` of
widget `w`; `derivedUpdate srcs sel d` is the `on_source_change` closure
created by `use_derived` (hooks.py lines 389–395), capturing the source cell
ids, the selector and the derived cell id. -/
inductive Watcher where
  | ext : Nat → Watcher
  | meth : Nat → String → Watcher
  | derivedUpdate : List Nat → Nat → Nat → Watcher
  deriving DecidableEq, Repr

/-- A watcher that never re-enters the cell machinery (anything but the
`use_derived` closure). -/
def Watcher.isFlat : Watcher → Bool
  | .derivedUpdate _ _ _ => false
  | _ => true

/-- Shallow embedding of a `State` object (state.py lines 26–62): current
value, ordered watcher list, subscriber set (the `WeakSet` is modelled as a
duplicate-free list whose iteration order abstracts the set's), and the
debug name. -/
structure State where
  value : PyVal
  watchers : List Watcher
  subscribers : List Nat
  name : Option String
  deriving DecidableEq, Repr

/-- The heap of live `State` objects, addressed by index. -/
structure Heap where
  cells : List State
  deriving DecidableEq, Repr

/-- Observable events produced while a mutation runs: synchronous watcher
invocations (external callbacks and effect-method wrappers) and
`StateChanged` messages posted to subscribed widgets
(`widget.post_message`). -/
inductive Ev where
  | watcherCall : Nat → PyVal → PyVal → Ev
  | methodCall : Nat → String → PyVal → PyVal → Ev
  | post : Nat → Nat → PyVal → PyVal → Ev
  deriving DecidableEq, Repr

/-- Posts — `Ev.post widget cell old new` — are the asynchronous
notifications;
everything else is a synchronous watcher call. -/
def Ev.isPostFor (cid : Nat) : Ev → Bool
  | .post _ c _ _ => c = cid
  | _ => false

/-- Result of running an embedded statement: the heap after it (mutations
performed before an exception are kept, as in Python), the events it emitted
in order, and the exception now propagating, if any. -/
structure Outcome where
  heap : Heap
  events : List Ev
  error : Option PyErr
  deriving Repr

/-- A method declared on a Python class: its name and, when decorated with
`@effect(...)`, the ordered target list stored in its
`__textual_reactive_effects__` registration. -/
inductive EffTarget where
  | sname : String → EffTarget
  | store : Nat → EffTarget
  deriving DecidableEq, Repr

structure MethodDecl where
  mname : String
  targets : Option (List EffTarget)
  deriving DecidableEq, Repr

/-- A widget class, split into the methods declared on the class itself and
the ones inherited from its bases (already flattened along the MRO). -/
structure ClassDecl where
  own : List MethodDecl
  base : List MethodDecl
  deriving DecidableEq, Repr

/-- The semantic environment: unary callables (`fns`, for updaters passed to
`set`), selectors (`sels`, applied to the list of source values), reducers
(`reducers state action`), the behaviour of external watcher callbacks and
effect methods (which may raise but, being outside the cell layer, do not
touch the heap), and the class of each widget. -/
structure Env where
  fns : Nat → PyVal → Except PyErr PyVal
  sels : Nat → List PyVal → Except PyErr PyVal
  reducers : Nat → PyVal → PyVal → Except PyErr PyVal
  extw : Nat → PyVal → PyVal → Option PyErr
  methw : Nat → String → PyVal → PyVal → Option PyErr
  wcls : Nat → ClassDecl

/-- Look a cell up in the heap. -/
def Heap.cell? (h : Heap) (cid : Nat) : Option State :=
  h.cells[cid]?

/-- The current value of a cell (`State.get`, state.py lines 74–76); `pnone`
for a dangling id, which well-formedness hypotheses rule out. -/
def Heap.valueOf (h : Heap) (cid : Nat) : PyVal :=
  match h.cells[cid]? with
  | some c => c.value
  | none => .prim .pnone

/-- Replace the stored value of one cell (`self._value = new_value`). -/
def Heap.setValueAt (h : Heap) (cid : Nat) (v : PyVal) : Heap :=
  match h.cells[cid]? with
  | some c => ⟨h.cells.set cid { c with value := v }⟩
  | none => h

/-- Append watchers to one cell's watcher list. -/
def Heap.appendWatchers (h : Heap) (cid : Nat) (ws : List Watcher) : Heap :=
  match h.cells[cid]? with
  | some c => ⟨h.cells.set cid { c with watchers := c.watchers ++ ws }⟩
  | none => h

/-- Registration by `State.watch` (state.py line 150): append one
callback. -/
def Heap.watchCell (h : Heap) (cid : Nat) (k : Watcher) : Heap :=
  h.appendWatchers cid [k]

/-- Subscription by `State.subscribe` (state.py line 129): `WeakSet.add`,
modelled as
append-if-absent. -/
def Heap.subscribeCell (h : Heap) (cid : Nat) (wid : Nat) : Heap :=
  match h.cells[cid]? with
  | some c =>
      if wid ∈ c.subscribers then h
      else ⟨h.cells.set cid { c with subscribers := c.subscribers ++ [wid] }⟩
  | none => h

/-- Read the current values of a list of source cells
(`[s.value for s in sources]`, hooks.py line 376). -/
def Heap.readValues (h : Heap) : List Nat → Except PyErr (List PyVal)
  | [] => .ok []
  | s :: rest =>
      match h.cells[s]? with
      | some c =>
          match h.readValues rest with
          | .ok vs => .ok (c.value :: vs)
          | .error e => .error e
      | none => .error (.runtimeError "missing cell")

/-- Run the watcher list of a cell in order (`for watcher in
self._watchers`, state.py lines 112–113).  External callbacks and effect
wrappers only emit their call event (and possibly raise); the `use_derived`
closure re-reads all of its source cells, re-applies the selector and routes
the result through the derived cell's own `set` (hooks.py lines 389–395) —
that nested `set` is the `setter` argument, supplied by `stateSet` below
with one unit of fuel consumed. -/
def runWatchersAux (setter : Heap → Nat → PyVal → Outcome) (env : Env)
    (h : Heap) (ws : List Watcher) (old nv : PyVal) : Outcome :=
  match ws with
  | [] => ⟨h, [], none⟩
  | .ext k :: rest =>
      match env.extw k old nv with
      | some e => ⟨h, [.watcherCall k old nv], some e⟩
      | none =>
          let o := runWatchersAux setter env h rest old nv
          ⟨o.heap, .watcherCall k old nv :: o.events, o.error⟩
  | .meth wid m :: rest =>
      match env.methw wid m old nv with
      | some e => ⟨h, [.methodCall wid m old nv], some e⟩
      | none =>
          let o := runWatchersAux setter env h rest old nv
          ⟨o.heap, .methodCall wid m old nv :: o.events, o.error⟩
  | .derivedUpdate srcs sel did :: rest =>
      match h.readValues srcs with
      | .error e => ⟨h, [], some e⟩
      | .ok vals =>
          match env.sels sel vals with
          | .error e => ⟨h, [], some e⟩
          | .ok computed =>
              let o := setter h did computed
              match o.error with
              | some _ => o
              | none =>
                  let o2 := runWatchersAux setter env o.heap rest old nv
                  ⟨o2.heap, o.events ++ o2.events, o2.error⟩

/-- Shallow embedding of `State._set_value` (state.py lines 98–118),
parameterized by the `set` used when a derivation watcher fires: the
equality gate (`model_dump` comparison for two pydantic models, `==`
otherwise) returns silently on equal values; otherwise the value is
committed first, then the watchers run in registration order, then a
`StateChanged` message is posted to every subscriber.  An exception from a
watcher leaves the committed value in place, skips the remaining watchers
and all subscriber posts, and propagates. -/
def setValueWith (setter : Heap → Nat → PyVal → Outcome) (env : Env)
    (h : Heap) (cid : Nat) (nv : PyVal) : Outcome :=
  match h.cells[cid]? with
  | none => ⟨h, [], some (.runtimeError "missing cell")⟩
  | some c =>
      if dumpEqCheck c.value nv then ⟨h, [], none⟩
      else
        let h1 := h.setValueAt cid nv
        let o := runWatchersAux setter env h1 c.watchers c.value nv
        match o.error with
        | some _ => o
        | none =>
            let subs :=
              match o.heap.cells[cid]? with
              | some c' => c'.subscribers
              | none => []
            ⟨o.heap, o.events ++ subs.map (fun w => .post w cid c.value nv),
              none⟩

/-- Shallow embedding of `State.set` (state.py lines 84–96): a callable
argument is applied to the current value as an updater (an exception from it
propagates before anything is committed); the resulting value — or the
non-callable argument itself — is handed to `_set_value`.  The fuel bounds
the nesting depth of derivation chains; its exhaustion models Python's
`RecursionError` on a cyclic derivation. -/
def stateSet : Nat → Env → Heap → Nat → PyVal → Outcome
  | 0, _, h, _, _ => ⟨h, [], some .recursionError⟩
  | fuel + 1, env, h, cid, v =>
      match v with
      | .vfun k =>
          match h.cells[cid]? with
          | none => ⟨h, [], some (.runtimeError "missing cell")⟩
          | some c =>
              match env.fns k c.value with
              | .error e => ⟨h, [], some e⟩
              | .ok nv => setValueWith (stateSet fuel env) env h cid nv
      | _ => setValueWith (stateSet fuel env) env h cid v

/-- Entry into `State._set_value` directly (as `ModelState.update`/`replace`
and the `value` property setter do), with `fuel` bounding nested derivation
depth. -/
def setValue (fuel : Nat) (env : Env) : Heap → Nat → PyVal → Outcome :=
  setValueWith (stateSet fuel env) env

/-- Python `list.remove(x)` semantics: remove the first element equal to
`x`; `none` when `x` is not in the list (Python raises `ValueError`). -/
def removeFirst (k : Watcher) : List Watcher → Option (List Watcher)
  | [] => none
  | w :: ws => if w = k then some ws else (removeFirst k ws).map (w :: ·)

/-- Shallow embedding of the `unwatch` closure returned by `State.watch`
(state.py lines 152–154): `self._watchers.remove(callback)`, which removes
the first registration equal (identical) to the captured callback and raises
`ValueError` when none is present. -/
def unwatch (h : Heap) (cid : Nat) (k : Watcher) : Except PyErr Heap :=
  match h.cells[cid]? with
  | none => .error (.runtimeError "missing cell")
  | some c =>
      match removeFirst k c.watchers with
      | none => .error (.valueError "list.remove(x): x not in list")
      | some ws => .ok ⟨h.cells.set cid { c with watchers := ws }⟩

/-- Shallow embedding of the `dispatch` closure of `use_reducer` (hooks.py
lines 252–255): read the current cell value, apply the reducer, and hand the
result to the cell's own `set`.  A reducer exception propagates before
`set` runs. -/
def use_reducer_dispatch (fuel : Nat) (env : Env) (h : Heap) (rid cid : Nat)
    (action : PyVal) : Outcome :=
  let current := h.valueOf cid
  match env.reducers rid current action with
  | .error e => ⟨h, [], some e⟩
  | .ok nv => stateSet fuel env h cid nv

/-! ### The effect registry (effects.py) -/

/-- Python `attr_name.startswith("_")` — true when the first character is an
underscore. -/
def startsUnderscore (n : String) : Bool :=
  match n.data with
  | [] => false
  | c :: _ => c = '_'

/-- Python `dir(type(widget))`: the attribute names of the class, the union
over
the MRO — own and inherited methods alike — in sorted order without
duplicates. -/
def dirOf (c : ClassDecl) : List String :=
  ((c.own.map MethodDecl.mname ++ c.base.map MethodDecl.mname).dedup).insertionSort
    (· ≤ ·)

/-- Python `getattr(type(widget), attr_name)`: MRO lookup, the class's own
declaration shadowing an inherited one. -/
def getattrOf (c : ClassDecl) (n : String) : Option MethodDecl :=
  match c.own.find? (fun m => m.mname = n) with
  | some m => some m
  | none => c.base.find? (fun m => m.mname = n)

/-- The attribute names `connect_effects` binds for a named state
(effects.py lines 104–126): every non-underscore attribute of
`dir(type(widget))` whose class attribute carries an `@effect` registration
that lists `state_name` among its targets (`state_name in
registration.targets`, string equality). -/
def effectMethodNames (c : ClassDecl) (state_name : String) : List String :=
  (dirOf c).filter fun n =>
    !startsUnderscore n &&
      match getattrOf c n with
      | some m =>
          match m.targets with
          | some ts => ts.contains (.sname state_name)
          | none => false
      | none => false

/-- Shallow embedding of `connect_effects` (effects.py lines 80–128): for
each matching method, register a bound-method wrapper as a watcher of the
cell, in `dir` order. -/
def connectEffects (env : Env) (h : Heap) (widget : Nat) (state_name : String)
    (cid : Nat) : Heap :=
  (effectMethodNames (env.wcls widget) state_name).foldl
    (fun acc n => acc.watchCell cid (.meth widget n)) h

/-- The attribute names `connect_store_effects` binds (effects.py lines
131–176): targets are compared against the store by reference identity
(`store in registration.targets`). -/
def storeEffectMethodNames (c : ClassDecl) (storeId : Nat) : List String :=
  (dirOf c).filter fun n =>
    !startsUnderscore n &&
      match getattrOf c n with
      | some m =>
          match m.targets with
          | some ts => ts.contains (.store storeId)
          | none => false
      | none => false

/-- Shallow embedding of `connect_store_effects` (effects.py lines
131–176). -/
def connectStoreEffects (env : Env) (h : Heap) (widget : Nat) (storeId : Nat)
    (cid : Nat) : Heap :=
  (storeEffectMethodNames (env.wcls widget) storeId).foldl
    (fun acc n => acc.watchCell cid (.meth widget n)) h

/-! ### Derivations (hooks.py `use_derived`) -/

/-- Shallow embedding of `use_derived` (hooks.py lines 324–405): read every
source's current value, apply the selector (an exception propagates to the
caller), create the derived cell subscribed by the owning widget, attach the
shared `on_source_change` closure to every source in source-list order, and
finally connect `@effect` methods when the derivation is named.  Returns the
new heap and the derived cell's id. -/
def use_derived (env : Env) (h : Heap) (widget : Nat) (srcs : List Nat)
    (sel : Nat) (name : Option String) : Except PyErr (Heap × Nat) := do
  let vals ← h.readValues srcs
  let init ← env.sels sel vals
  let cid := h.cells.length
  let h1 : Heap := ⟨h.cells ++ [⟨init, [], [widget], name⟩]⟩
  let h2 := srcs.foldl (fun acc s => acc.watchCell s (.derivedUpdate srcs sel cid)) h1
  let h3 :=
    match name with
    | some n => connectEffects env h2 widget n cid
    | none => h2
  .ok (h3, cid)

/-! ### The widget tree and context resolution (context.py) -/

/-- A context object (context.py lines 32–83): default value and debug
name.  Context identity (`is`) is the index into the context table. -/
structure ContextObj where
  defaultValue : PyVal
  cname : Option String
  deriving DecidableEq, Repr

/-- What a tree node is, for the resolution walks: a plain widget, a mounted
`ContextProvider` (carrying the provided context's id and its state cell's
id), or a mounted `StoreProvider` (store id and state cell id). -/
inductive WKind where
  | plain : WKind
  | contextProvider : Nat → Nat → WKind
  | storeProvider : Nat → Nat → WKind
  deriving DecidableEq, Repr

/-- A node of the widget tree: parent link (none at the root), kind, and the
widget's class name (for error messages). -/
structure WNode where
  parent : Option Nat
  kind : WKind
  cls : String
  deriving DecidableEq, Repr

/-- The test `isinstance(current, ContextProvider) and current._rx_context
is context` (context.py line 301). -/
def isProviderFor (n : WNode) (ctx : Nat) : Bool :=
  match n.kind with
  | .contextProvider c _ => c = ctx
  | _ => false

/-- The state cell a `ContextProvider` node holds. -/
def providerCell (n : WNode) : Option Nat :=
  match n.kind with
  | .contextProvider _ cell => some cell
  | _ => none

/-- Shallow embedding of `_find_provider`'s walk (context.py lines
296–310): test the current widget, then follow `parent` links upward; first
match wins.  The fuel only guards against malformed (cyclic) parent links;
`parentsOkB` trees never exhaust it. -/
def findProviderFuel : Nat → List WNode → Nat → Nat → Option Nat
  | 0, _, _, _ => none
  | fuel + 1, nodes, wid, ctx =>
      match nodes[wid]? with
      | none => none
      | some n =>
          if isProviderFor n ctx then some wid
          else
            match n.parent with
            | some p => findProviderFuel fuel nodes p ctx
            | none => none

/-- Embedding of `_find_provider(widget, context)` (context.py lines
296–310). -/
def findProvider (nodes : List WNode) (wid ctx : Nat) : Option Nat :=
  findProviderFuel (wid + 1) nodes wid ctx

/-- The ancestor chain of a widget, the widget itself first — the sequence
of nodes the resolution walk visits. -/
def chainFuel : Nat → List WNode → Nat → List Nat
  | 0, _, _ => []
  | fuel + 1, nodes, wid =>
      match nodes[wid]? with
      | none => []
      | some n =>
          wid ::
            (match n.parent with
             | some p => chainFuel fuel nodes p
             | none => [])

def ancestorChain (nodes : List WNode) (wid : Nat) : List Nat :=
  chainFuel (wid + 1) nodes wid

/-- Well-formedness of the tree encoding: every parent link points to a
smaller index (parents are mounted before their children), so every upward
walk terminates. -/
def parentsOkB (nodes : List WNode) : Bool :=
  (List.range nodes.length).all fun i =>
    match nodes[i]? with
    | some n =>
        match n.parent with
        | some p => decide (p < i)
        | none => true
    | none => true

/-- A consumed-context handle (context.py lines 229–274): the resolved cell,
the consuming widget, the context, and the `is_default` flag. -/
structure ContextHandle where
  cellId : Nat
  widgetId : Nat
  ctxId : Nat
  is_default : Bool
  deriving DecidableEq, Repr

/-- Shallow embedding of `use_context` (context.py lines 333–387): resolve
the nearest provider; on success use its cell with `is_default = False`; on
failure either raise `ContextNotFoundError` (carrying the context's name and
the consuming widget's class name, context.py lines 19–29) when `required`,
or synthesize a fresh local cell seeded with the context's default value and
flag the handle `is_default = True`.  Finally subscribe the widget when
`subscribe` is set. -/
def use_context (nodes : List WNode) (ctxs : List ContextObj) (h : Heap)
    (wid ctx : Nat) (subscribe required : Bool) :
    Except PyErr (Heap × ContextHandle) := do
  let ctxObj ←
    match ctxs[ctx]? with
    | some c => Except.ok c
    | none => Except.error (.runtimeError "missing context")
  let wcls ←
    match nodes[wid]? with
    | some n => Except.ok n.cls
    | none => Except.error (.runtimeError "missing widget")
  let resolved :=
    match findProvider nodes wid ctx with
    | some p =>
        match nodes[p]? with
        | some n =>
            match providerCell n with
            | some cell => some cell
            | none => none
        | none => none
    | none => none
  let (h1, cellId, is_default) ←
    match resolved with
    | some cell => Except.ok (h, cell, false)
    | none =>
        if required then Except.error (.contextNotFound ctxObj.cname wcls)
        else
          Except.ok
            (⟨h.cells ++ [⟨ctxObj.defaultValue, [], [], ctxObj.cname⟩]⟩,
              h.cells.length, true)
  let h2 := if subscribe then h1.subscribeCell cellId wid else h1
  .ok (h2, ⟨cellId, wid, ctx, is_default⟩)

/-- Shallow embedding of `ContextProvider.__init__` (context.py lines
175–198).  After the superclass call the body stores the context and then
builds `State(value, name=context.name)`; the name `context` is unbound in
that scope — no local, enclosing, global or builtin binding exists (the
parameter is called `reactive_context`) — so evaluating the keyword argument
raises `NameError` before the `State` is constructed or the provider
registered. -/
def ContextProvider.init (reactive_context : Nat) (value : PyVal) :
    Except PyErr (Nat × State) := do
  let stateName ← (Except.error (PyErr.nameError "NameError: name context is not defined") :
    Except PyErr (Option String))
  .ok (reactive_context, ⟨value, [], [], stateName⟩)

/-! ### Stores (store.py) -/

/-- A `Store` (store.py lines 120–165): reducer, initial value, name.
Store identity (`is`) is the index into the store table. -/
structure StoreObj where
  reducerId : Nat
  initial : PyVal
  sname : Option String
  deriving Repr

/-- Shallow embedding of `StoreProvider.__init__` (store.py lines 73–96):
each provider instance creates its own fresh state cell holding the store's
initial value (a `ModelState` for a pydantic initial value, a plain `State`
otherwise — both share `_set_value`), and its own `dispatch` closure over
that cell.  Returns the extended heap and the new cell's id. -/
def StoreProvider.init (store : StoreObj) (h : Heap) : Heap × Nat :=
  (⟨h.cells ++ [⟨store.initial, [], [], store.sname⟩]⟩, h.cells.length)

/-- The `dispatch` closure a `StoreProvider` creates (store.py lines
91–96): read the provider's own cell, apply the store's reducer, route the
result through the cell's `set`. -/
def storeProviderDispatch (fuel : Nat) (env : Env) (store : StoreObj)
    (h : Heap) (cid : Nat) (action : PyVal) : Outcome :=
  let current := h.valueOf cid
  match env.reducers store.reducerId current action with
  | .error e => ⟨h, [], some e⟩
  | .ok nv => stateSet fuel env h cid nv

/-- Dispatch a whole sequence of actions through one provider's dispatcher,
stopping at the first propagating exception. -/
def dispatchSeq (fuel : Nat) (env : Env) (store : StoreObj) (cid : Nat)
    (h : Heap) (actions : List PyVal) : Outcome :=
  match actions with
  | [] => ⟨h, [], none⟩
  | a :: rest =>
      let o := storeProviderDispatch fuel env store h cid a
      match o.error with
      | some _ => o
      | none =>
          let o2 := dispatchSeq fuel env store cid o.heap rest
          ⟨o2.heap, o.events ++ o2.events, o2.error⟩

/-- The test `isinstance(current, StoreProvider) and current._store is
self` (store.py line 226). -/
def isStoreProviderFor (n : WNode) (sid : Nat) : Bool :=
  match n.kind with
  | .storeProvider s _ => s = sid
  | _ => false

def storeProviderCell (n : WNode) : Option Nat :=
  match n.kind with
  | .storeProvider _ cell => some cell
  | _ => none

/-- Embedding of `Store._find_provider` (store.py lines 221–234), the same
upward walk as
context resolution. -/
def findStoreProviderFuel : Nat → List WNode → Nat → Nat → Option Nat
  | 0, _, _, _ => none
  | fuel + 1, nodes, wid, sid =>
      match nodes[wid]? with
      | some n =>
          if isStoreProviderFor n sid then some wid
          else
            match n.parent with
            | some p => findStoreProviderFuel fuel nodes p sid
            | none => none
      | none => none

def findStoreProvider (nodes : List WNode) (wid sid : Nat) : Option Nat :=
  findStoreProviderFuel (wid + 1) nodes wid sid

/-- A `StoreHandle` (store.py lines 20–60): the resolved provider's cell and
the store it belongs to; its `dispatch` is the provider's own closure. -/
structure StoreHandle where
  cellId : Nat
  storeId : Nat
  deriving DecidableEq, Repr

/-- Shallow embedding of `Store.use` (store.py lines 188–219): resolve the
nearest provider for this store (raising `RuntimeError` when none is
mounted), subscribe the consuming widget, connect `@effect` methods
targeting the store, and return a handle over that provider's cell and
dispatcher. -/
def Store.use (env : Env) (nodes : List WNode) (h : Heap) (sid : Nat)
    (store : StoreObj) (wid : Nat) (subscribe : Bool) :
    Except PyErr (Heap × StoreHandle) := do
  let p ←
    match findStoreProvider nodes wid sid with
    | some p => Except.ok p
    | none =>
        Except.error
          (.runtimeError ((store.sname.getD "unnamed") ++ " not found"))
  let cell ←
    match nodes[p]? with
    | some n =>
        match storeProviderCell n with
        | some c => Except.ok c
        | none => Except.error (.runtimeError "not a store provider")
    | none => Except.error (.runtimeError "missing widget")
  let h1 := if subscribe then h.subscribeCell cell wid else h
  let h2 := connectStoreEffects env h1 wid sid cell
  .ok (h2, ⟨cell, sid⟩)

/-! ### Predicates and event helpers used by the theorems -/

/-- Whether an event is an asynchronous `StateChanged` post (as opposed to a
synchronous watcher call). -/
def Ev.isPost : Ev → Bool
  | .post _ _ _ _ => true
  | _ => false

/-- The event a flat watcher emits.  (The `derivedUpdate` case is
unreachable on flat lists; the value returned there is irrelevant.) -/
def flatEvent (old nv : PyVal) : Watcher → Ev
  | .ext k => .watcherCall k old nv
  | .meth w m => .methodCall w m old nv
  | .derivedUpdate _ _ _ => .watcherCall 0 old nv

/-- A watcher that, invoked with `(old, nv)`, returns without raising and
without re-entering the cell machinery. -/
def Watcher.clean (env : Env) (old nv : PyVal) : Watcher → Bool
  | .ext k => (env.extw k old nv).isNone
  | .meth w m => (env.methw w m old nv).isNone
  | .derivedUpdate _ _ _ => false

/-- No external watcher callback and no effect method ever raises. -/
def noRaiseEnv (env : Env) : Prop :=
  (∀ k o n, env.extw k o n = none) ∧ (∀ w m o n, env.methw w m o n = none)

/-- Integer content of a value (0 for non-integers); used by the concrete
environments below. -/
def intOf : PyVal → Int
  | .prim (.pint n) => n
  | _ => 0

def sumInts (vs : List PyVal) : Int :=
  vs.foldl (fun a v => a + intOf v) 0

/-- A concrete widget class hierarchy: `Base` declares an `@effect("count")`
method `onCount`; `Child(Base)` declares nothing of its own. -/
def childClass : ClassDecl :=
  ⟨[], [⟨"onCount", some [.sname "count"]⟩]⟩

/-- A concrete environment exercising the failure paths: updater 0 is a
constant function returning 42, updater 1 returns its own function object
(`def f(x): return f`), updater 2 raises; selector 9 raises, other selectors
sum their integer arguments; reducer 2 raises, other reducers add the action
to the state; external watcher 99 raises, all others return normally. -/
def envA : Env where
  fns := fun k _ =>
    if k = 1 then .ok (.vfun 1)
    else if k = 2 then .error (.userError 2)
    else .ok (.prim (.pint 42))
  sels := fun k vs =>
    if k = 9 then .error (.userError 9) else .ok (.prim (.pint (sumInts vs)))
  reducers := fun k s a =>
    if k = 2 then .error (.userError 2)
    else .ok (.prim (.pint (intOf s + intOf a)))
  extw := fun k _ _ => if k = 99 then some (.userError 99) else none
  methw := fun _ _ _ _ => none
  wcls := fun w => if w = 0 then childClass else ⟨[], []⟩

/-- A benign environment: no callback raises, selectors sum their integer
arguments, reducers add the action to the state. -/
def envB : Env where
  fns := fun _ x => .ok x
  sels := fun _ vs => .ok (.prim (.pint (sumInts vs)))
  reducers := fun _ s a => .ok (.prim (.pint (intOf s + intOf a)))
  extw := fun _ _ _ => none
  methw := fun _ _ _ _ => none
  wcls := fun _ => ⟨[], []⟩

/-- Concrete widget tree: node 0 is the root app, node 1 a mounted provider
for context 0 holding cell 0, node 2 a consumer below the provider, node 3 a
widget outside the provider's subtree. -/
def nodes7 : List WNode :=
  [⟨none, .plain, "MyApp"⟩, ⟨some 0, .contextProvider 0 0, "ContextProvider"⟩,
    ⟨some 1, .plain, "MyWidget"⟩, ⟨some 0, .plain, "Lonely"⟩]

def ctxs7 : List ContextObj := [⟨.prim (.pstr "light"), some "theme"⟩]

def heap7 : Heap := ⟨[⟨.prim (.pstr "dark"), [], [], some "theme"⟩]⟩

/-- Concrete two-source world for the derivation scenario: cell 0 (source
`a`) holds 3 and is subscribed by widget 5; cell 1 (source `b`) holds 4. -/
def heap6 : Heap :=
  ⟨[⟨.prim (.pint 3), [], [5], none⟩, ⟨.prim (.pint 4), [], [], none⟩]⟩

/-- The heap `use_derived` builds over `heap6` for sources `[0, 1]`,
selector 0 (integer sum) and owning widget 9: the derived cell 2 holds
`3 + 4 = 7` and the shared derivation watcher hangs on both sources. -/
def heap6d : Heap :=
  ⟨[⟨.prim (.pint 3), [.derivedUpdate [0, 1] 0 2], [5], none⟩,
    ⟨.prim (.pint 4), [.derivedUpdate [0, 1] 0 2], [], none⟩,
    ⟨.prim (.pint 7), [], [9], none⟩]⟩

/-- A concrete store: reducer 0 (which in `envB` adds the integer action to
the state), initial value 0. -/
def store8 : StoreObj := ⟨0, .prim (.pint 0), some "counter"⟩

/-- A tree mounting `store8` twice in sibling subtrees: providers at nodes 1
(cell 0) and 2 (cell 1), with one consumer under each. -/
def nodes8 : List WNode :=
  [⟨none, .plain, "MyApp"⟩,
    ⟨some 0, .storeProvider 0 0, "StoreProvider"⟩,
    ⟨some 0, .storeProvider 0 1, "StoreProvider"⟩,
    ⟨some 1, .plain, "CounterA"⟩, ⟨some 2, .plain, "CounterB"⟩]

/-- The heap after both providers of `nodes8` have run their `__init__`. -/
def heap8 : Heap :=
  ⟨[⟨.prim (.pint 0), [], [], some "counter"⟩,
    ⟨.prim (.pint 0), [], [], some "counter"⟩]⟩

/-! ## Supporting lemmas -/

theorem removeFirst_of_not_mem (k : Watcher) (l : List Watcher) (h : k ∉ l) :
    removeFirst k l = none := by
  induction l with
  | nil => rfl
  | cons w ws ih =>
      have hw : ¬w = k := fun he => h (he ▸ List.mem_cons_self w ws)
      have hm : k ∉ ws := fun hm => h (List.mem_cons_of_mem w hm)
      simp [removeFirst, hw, ih hm]

theorem removeFirst_append_not_mem (k : Watcher) (pre post : List Watcher)
    (h : k ∉ pre) : removeFirst k (pre ++ k :: post) = some (pre ++ post) := by
  induction pre with
  | nil => simp [removeFirst]
  | cons w ws ih =>
      have hw : ¬w = k := fun he => h (he ▸ List.mem_cons_self w ws)
      have hm : k ∉ ws := fun hm => h (List.mem_cons_of_mem w hm)
      simp [removeFirst, hw, ih hm]

/-- Reading another cell after a value commit. -/
theorem valueOf_setValueAt_ne (h : Heap) (i j : Nat) (v : PyVal) (hij : i ≠ j) :
    (h.setValueAt i v).valueOf j = h.valueOf j := by
  unfold Heap.setValueAt Heap.valueOf
  cases hc : h.cells[i]? with
  | none => rfl
  | some c => simp [List.getElem?_set_ne hij]

theorem cell?_setValueAt_ne (h : Heap) (i j : Nat) (v : PyVal) (hij : i ≠ j) :
    (h.setValueAt i v).cells[j]? = h.cells[j]? := by
  unfold Heap.setValueAt
  cases hc : h.cells[i]? with
  | none => rfl
  | some c => simp [List.getElem?_set_ne hij]

theorem cell?_setValueAt_self (h : Heap) (i : Nat) (v : PyVal) (c : State)
    (hc : h.cells[i]? = some c) :
    (h.setValueAt i v).cells[i]? = some { c with value := v } := by
  unfold Heap.setValueAt
  rw [hc]
  exact List.getElem?_set_eq_of_lt _ (List.getElem?_eq_some_iff.mp hc).1

/-- A clean prefix of the watcher list runs first, leaves the heap alone,
contributes its call events, and hands control to the rest of the list. -/
theorem runWatchers_clean_front (setter : Heap → Nat → PyVal → Outcome)
    (env : Env) (h : Heap) (ws tail : List Watcher) (old nv : PyVal)
    (hc : ∀ w ∈ ws, Watcher.clean env old nv w) :
    runWatchersAux setter env h (ws ++ tail) old nv =
      ⟨(runWatchersAux setter env h tail old nv).heap,
        ws.map (flatEvent old nv) ++
          (runWatchersAux setter env h tail old nv).events,
        (runWatchersAux setter env h tail old nv).error⟩ := by
  induction ws with
  | nil => simp
  | cons w rest ih =>
      have hw := hc w (List.mem_cons_self w rest)
      have hrest : ∀ x ∈ rest, Watcher.clean env old nv x := fun x hx =>
        hc x (List.mem_cons_of_mem w hx)
      cases w with
      | ext k =>
          have : env.extw k old nv = none := by
            simpa [Watcher.clean, Option.isNone_iff_eq_none] using hw
          simp [runWatchersAux, this, ih hrest, flatEvent]
      | meth wid m =>
          have : env.methw wid m old nv = none := by
            simpa [Watcher.clean, Option.isNone_iff_eq_none] using hw
          simp [runWatchersAux, this, ih hrest, flatEvent]
      | derivedUpdate srcs sel did => simp [Watcher.clean] at hw

/-- A fully clean watcher list runs to completion with no heap change and
no error, emitting exactly its call events. -/
theorem runWatchers_clean (setter : Heap → Nat → PyVal → Outcome) (env : Env)
    (h : Heap) (ws : List Watcher) (old nv : PyVal)
    (hc : ∀ w ∈ ws, Watcher.clean env old nv w) :
    runWatchersAux setter env h ws old nv =
      ⟨h, ws.map (flatEvent old nv), none⟩ := by
  have := runWatchers_clean_front setter env h ws [] old nv hc
  simpa [runWatchersAux] using this

theorem noRaise_clean (env : Env) (hnr : noRaiseEnv env) (old nv : PyVal)
    (w : Watcher) (hw : w.isFlat) : Watcher.clean env old nv w := by
  cases w with
  | ext k => simp [Watcher.clean, hnr.1]
  | meth wid m => simp [Watcher.clean, hnr.2]
  | derivedUpdate srcs sel did => simp [Watcher.isFlat] at hw

theorem valueOf_setValueAt_self (h : Heap) (i : Nat) (v : PyVal) (c : State)
    (hc : h.cells[i]? = some c) : (h.setValueAt i v).valueOf i = v := by
  unfold Heap.valueOf
  rw [cell?_setValueAt_self h i v c hc]

/-- Whether the node at index `j` is a mounted provider for context `ctx` —
the test the resolution walk applies at each ancestor. -/
def providesAt (nodes : List WNode) (ctx : Nat) (j : Nat) : Bool :=
  match nodes[j]? with
  | some n => isProviderFor n ctx
  | none => false

/-- The `_find_provider` walk is exactly "first provider on the ancestor
chain": it visits the chain in order and returns the first node passing the
provider test. -/
theorem findProviderFuel_eq_find (fuel : Nat) (nodes : List WNode)
    (wid ctx : Nat) :
    findProviderFuel fuel nodes wid ctx =
      (chainFuel fuel nodes wid).find? (providesAt nodes ctx) := by
  induction fuel generalizing wid with
  | zero => rfl
  | succ f ih =>
      simp only [findProviderFuel, chainFuel]
      cases hn : nodes[wid]? with
      | none => rfl
      | some n =>
          by_cases hp : isProviderFor n ctx
          · simp [List.find?, providesAt, hn, hp]
          · cases hpar : n.parent with
            | some p =>
                simp [List.find?, providesAt, hn, hp, hpar, ih p]
            | none => simp [List.find?, providesAt, hn, hp, hpar]

theorem findProvider_eq_find (nodes : List WNode) (wid ctx : Nat) :
    findProvider nodes wid ctx =
      (ancestorChain nodes wid).find? (providesAt nodes ctx) :=
  findProviderFuel_eq_find (wid + 1) nodes wid ctx

theorem valueOf_subscribeCell (h : Heap) (cid wid j : Nat) :
    (h.subscribeCell cid wid).valueOf j = h.valueOf j := by
  unfold Heap.subscribeCell Heap.valueOf
  cases hc : h.cells[cid]? with
  | none => rfl
  | some c =>
      by_cases hm : wid ∈ c.subscribers
      · simp [hm]
      · simp only [hm, if_false]
        by_cases hj : cid = j
        · subst hj
          rw [List.getElem?_set_eq_of_lt _ (List.getElem?_eq_some_iff.mp hc).1,
            hc]
        · rw [List.getElem?_set_ne hj]

theorem list_set_of_getElem? {α : Type} (l : List α) (i : Nat) (c : α)
    (h : l[i]? = some c) : l.set i c = l := by
  apply List.ext_getElem?
  intro j
  by_cases hij : i = j
  · subst hij
    rw [List.getElem?_set_eq_of_lt _ (List.getElem?_eq_some_iff.mp h).1]
    exact h.symm
  · rw [List.getElem?_set_ne hij]

theorem appendWatchers_nil (h : Heap) (cid : Nat) :
    h.appendWatchers cid [] = h := by
  unfold Heap.appendWatchers
  cases hc : h.cells[cid]? with
  | none => rfl
  | some c => simp [list_set_of_getElem? _ _ _ hc]

theorem appendWatchers_appendWatchers (h : Heap) (cid : Nat)
    (xs ys : List Watcher) :
    (h.appendWatchers cid xs).appendWatchers cid ys =
      h.appendWatchers cid (xs ++ ys) := by
  unfold Heap.appendWatchers
  cases hc : h.cells[cid]? with
  | none => simp [hc]
  | some c =>
      have h1 : (h.cells.set cid
            { c with watchers := c.watchers ++ xs })[cid]? =
          some { c with watchers := c.watchers ++ xs } :=
        List.getElem?_set_eq_of_lt _ (List.getElem?_eq_some_iff.mp hc).1
      simp [h1, List.set_set, List.append_assoc]

theorem appendWatchers_cell?_ne (h : Heap) (cid j : Nat) (ws : List Watcher)
    (hne : cid ≠ j) :
    (h.appendWatchers cid ws).cells[j]? = h.cells[j]? := by
  unfold Heap.appendWatchers
  cases hc : h.cells[cid]? with
  | none => rfl
  | some c => simp [List.getElem?_set_ne hne]

theorem appendWatchers_cell?_self (h : Heap) (cid : Nat) (ws : List Watcher)
    (c : State) (hc : h.cells[cid]? = some c) :
    (h.appendWatchers cid ws).cells[cid]? =
      some { c with watchers := c.watchers ++ ws } := by
  unfold Heap.appendWatchers
  rw [hc]
  exact List.getElem?_set_eq_of_lt _ (List.getElem?_eq_some_iff.mp hc).1

theorem watchCell_cell?_ne (h : Heap) (cid j : Nat) (k : Watcher)
    (hne : cid ≠ j) : (h.watchCell cid k).cells[j]? = h.cells[j]? :=
  appendWatchers_cell?_ne h cid j [k] hne

theorem watchCell_cell?_self (h : Heap) (cid : Nat) (k : Watcher) (c : State)
    (hc : h.cells[cid]? = some c) :
    (h.watchCell cid k).cells[cid]? =
      some { c with watchers := c.watchers ++ [k] } :=
  appendWatchers_cell?_self h cid [k] c hc

theorem foldl_watchCell (names : List String) (h : Heap) (cid wid : Nat) :
    names.foldl (fun acc n => acc.watchCell cid (.meth wid n)) h =
      h.appendWatchers cid (names.map (Watcher.meth wid)) := by
  induction names generalizing h with
  | nil => simp [appendWatchers_nil]
  | cons n rest ih =>
      simp only [List.foldl_cons, List.map_cons]
      rw [ih]
      unfold Heap.watchCell
      rw [appendWatchers_appendWatchers]
      rfl

theorem connectEffects_eq (env : Env) (h : Heap) (widget : Nat) (n : String)
    (cid : Nat) :
    connectEffects env h widget n cid =
      h.appendWatchers cid
        ((effectMethodNames (env.wcls widget) n).map (Watcher.meth widget)) :=
  foldl_watchCell _ h cid widget

theorem connectStoreEffects_eq (env : Env) (h : Heap) (widget : Nat)
    (sid cid : Nat) :
    connectStoreEffects env h widget sid cid =
      h.appendWatchers cid
        ((storeEffectMethodNames (env.wcls widget) sid).map
          (Watcher.meth widget)) :=
  foldl_watchCell _ h cid widget

/-- A non-callable argument to `set` goes straight to `_set_value`. -/
theorem stateSet_not_callable (f : Nat) (env : Env) (h : Heap) (cid : Nat)
    (v : PyVal) (hnc : isCallable v = false) :
    stateSet (f + 1) env h cid v =
      setValueWith (stateSet f env) env h cid v := by
  cases v with
  | vfun k => simp [isCallable] at hnc
  | prim p => rfl
  | vmodel s fs => rfl
  | vdict fs => rfl

/-- The event a flat watcher emits is never a post. -/
theorem isPostFor_flatEvent (d : Nat) (old nv : PyVal) (w : Watcher) :
    Ev.isPostFor d (flatEvent old nv w) = false := by
  cases w <;> rfl

theorem except_bind_ok {e : Type u} {a b : Type v} (x : a)
    (f : a → Except e b) : (Except.ok x : Except e a) >>= f = f x := rfl

theorem except_bind_error {e : Type u} {a b : Type v} (err : e)
    (f : a → Except e b) :
    (Except.error err : Except e a) >>= f = .error err := rfl

/-! ## Claim theorems -/

/-- C2, counterexample.  The cell's current value is the function object
`vfun 0` (stored through the `value` property setter, which skips the
callable test); `set` is then called with that very object — `v == current`
holds, Python function equality being identity — yet `set` treats the
argument as an updater, computes `f(current) = 42`, commits it, invokes the
watcher and posts a notification.  So "set with a structurally equal value
is a no-op" fails for callable arguments. -/
theorem claim2_counterexample :
    pyEq (.vfun 0) (Heap.valueOf ⟨[⟨.vfun 0, [.ext 7], [3], none⟩]⟩ 0) = true ∧
      stateSet 2 envA ⟨[⟨.vfun 0, [.ext 7], [3], none⟩]⟩ 0 (.vfun 0) =
        ⟨⟨[⟨.prim (.pint 42), [.ext 7], [3], none⟩]⟩,
          [.watcherCall 7 (.vfun 0) (.prim (.pint 42)),
            .post 3 0 (.vfun 0) (.prim (.pint 42))], none⟩ :=
  ⟨rfl, rfl⟩

/-- C2, amended: for every NON-CALLABLE value `v` that the equality gate of
`_set_value` (`model_dump` comparison for two pydantic models, `==`
otherwise) judges equal to the current value, `set(v)` is a no-op: no
watcher call, no posted notification, the heap — in particular the stored
reference — unchanged.  (A callable `v` is instead applied as an updater,
see the counterexample.) -/
theorem claim2_theorem (fuel : Nat) (env : Env) (h : Heap) (cid : Nat)
    (v : PyVal) (c : State) (hc : h.cells[cid]? = some c)
    (hnc : isCallable v = false) (heq : dumpEqCheck c.value v = true)
    (hfuel : fuel ≠ 0) :
    stateSet fuel env h cid v = ⟨h, [], none⟩ := by
  obtain ⟨f, rfl⟩ := Nat.exists_eq_succ_of_ne_zero hfuel
  cases v with
  | vfun k => simp [isCallable] at hnc
  | prim p => simp [stateSet, setValueWith, hc, heq]
  | vmodel s fs => simp [stateSet, setValueWith, hc, heq]
  | vdict fs => simp [stateSet, setValueWith, hc, heq]

theorem claim2_witness :
    stateSet 1 envA ⟨[⟨.prim (.pint 5), [.ext 7], [3], none⟩]⟩ 0
        (.prim (.pint 5)) =
      ⟨⟨[⟨.prim (.pint 5), [.ext 7], [3], none⟩]⟩, [], none⟩ :=
  claim2_theorem 1 envA ⟨[⟨.prim (.pint 5), [.ext 7], [3], none⟩]⟩ 0
    (.prim (.pint 5)) ⟨.prim (.pint 5), [.ext 7], [3], none⟩ rfl rfl rfl
    (by decide)

/-- C9, counterexample.  With the self-returning updater `def f(x): return
f` (function 1 of `envA`), `set(f)` stores `f(current) = f` — the function
object itself, a callable — as the cell's value.  So "a callable can never
be stored as the cell's value through set" fails. -/
theorem claim9_counterexample :
    (stateSet 2 envA ⟨[⟨.prim (.pint 1), [], [], none⟩]⟩ 0
          (.vfun 1)).heap.valueOf 0 = .vfun 1 ∧
      isCallable
          ((stateSet 2 envA ⟨[⟨.prim (.pint 1), [], [], none⟩]⟩ 0
              (.vfun 1)).heap.valueOf 0) = true :=
  ⟨rfl, rfl⟩

/-- C9, amended: a callable argument to `set` is always interpreted as an
updater — `set(c)` routes `c(current)`, not `c`, through `_set_value` — but
the applied result may itself be callable (for instance when `c` returns
its own function object), so a callable can still end up stored through
`set`. -/
theorem claim9_theorem (fuel : Nat) (env : Env) (h : Heap) (cid k : Nat)
    (c : State) (nv : PyVal) (hc : h.cells[cid]? = some c)
    (hfn : env.fns k c.value = .ok nv) (hfuel : fuel ≠ 0) :
    stateSet fuel env h cid (.vfun k) = setValue (fuel - 1) env h cid nv := by
  obtain ⟨f, rfl⟩ := Nat.exists_eq_succ_of_ne_zero hfuel
  simp [stateSet, hc, hfn, setValue]

theorem claim9_witness :
    stateSet 3 envA ⟨[⟨.prim (.pint 1), [], [], none⟩]⟩ 0 (.vfun 0) =
      setValue 2 envA ⟨[⟨.prim (.pint 1), [], [], none⟩]⟩ 0
        (.prim (.pint 42)) :=
  claim9_theorem 3 envA ⟨[⟨.prim (.pint 1), [], [], none⟩]⟩ 0 0
    ⟨.prim (.pint 1), [], [], none⟩ (.prim (.pint 42)) rfl rfl (by decide)

/-- C5, counterexample.  After `u = state.watch(cb); u()` the callback is
gone; calling `u()` a second time raises `ValueError` (from
`list.remove`).  And after re-registering the very same callback, the
second `u()` call instead removes that later registration.  Both halves of
the idempotent-safety claim fail. -/
theorem claim5_counterexample :
    unwatch ⟨[⟨.prim .pnone, [], [], none⟩]⟩ 0 (.ext 5) =
        .error (.valueError "list.remove(x): x not in list") ∧
      unwatch (Heap.watchCell ⟨[⟨.prim .pnone, [], [], none⟩]⟩ 0 (.ext 5)) 0
          (.ext 5) =
        .ok ⟨[⟨.prim .pnone, [], [], none⟩]⟩ :=
  ⟨rfl, rfl⟩

/-- C5, amended: the closure returned by `watch(callback)` performs
`self._watchers.remove(callback)`: it removes the FIRST registration equal
(identical) to the callback — so a later registration of the same callback
is removed by a second call — and it raises `ValueError` when no such
registration is present. -/
theorem claim5_theorem (h : Heap) (cid : Nat) (k : Watcher) (c : State)
    (hc : h.cells[cid]? = some c) :
    (k ∉ c.watchers →
        unwatch h cid k =
          .error (.valueError "list.remove(x): x not in list")) ∧
      ∀ pre post, c.watchers = pre ++ k :: post → k ∉ pre →
        unwatch h cid k =
          .ok ⟨h.cells.set cid { c with watchers := pre ++ post }⟩ := by
  constructor
  · intro hm
    simp [unwatch, hc, removeFirst_of_not_mem k _ hm]
  · intro pre post hw hm
    simp [unwatch, hc, hw, removeFirst_append_not_mem k pre post hm]

theorem claim5_witness :
    (Watcher.ext 5 ∉ ([.ext 1, .ext 5] : List Watcher) →
        unwatch ⟨[⟨.prim .pnone, [.ext 1, .ext 5], [], none⟩]⟩ 0 (.ext 5) =
          .error (.valueError "list.remove(x): x not in list")) ∧
      ∀ pre post,
        ([.ext 1, .ext 5] : List Watcher) = pre ++ .ext 5 :: post →
          Watcher.ext 5 ∉ pre →
            unwatch ⟨[⟨.prim .pnone, [.ext 1, .ext 5], [], none⟩]⟩ 0
                (.ext 5) =
              .ok ⟨[⟨.prim .pnone, [.ext 1, .ext 5], [], none⟩].set 0
                  ⟨.prim .pnone, pre ++ post, [], none⟩⟩ :=
  claim5_theorem ⟨[⟨.prim .pnone, [.ext 1, .ext 5], [], none⟩]⟩ 0 (.ext 5)
    ⟨.prim .pnone, [.ext 1, .ext 5], [], none⟩ rfl

/-- C3: selector/transition exceptions propagate to the caller of
`set`/`dispatch` and the computed-for cell keeps its pre-call value.
Part 1: an updater passed to `set` that raises leaves the cell unchanged
(nothing committed, no watcher call, no post) and the exception propagates.
Part 2: likewise for a reducer raising inside `dispatch` (hooks.py lines
252–255).  Part 3: a selector that raises while a derivation watcher is
re-computing propagates to the caller of the source's `set`, and the
derived cell keeps its pre-call value. -/
theorem claim3_theorem :
    (∀ (fuel : Nat) (env : Env) (h : Heap) (cid k : Nat) (c : State)
        (e : PyErr), h.cells[cid]? = some c →
        env.fns k c.value = .error e → fuel ≠ 0 →
        stateSet fuel env h cid (.vfun k) = ⟨h, [], some e⟩) ∧
      (∀ (fuel : Nat) (env : Env) (h : Heap) (rid cid : Nat) (a : PyVal)
          (e : PyErr), env.reducers rid (h.valueOf cid) a = .error e →
          use_reducer_dispatch fuel env h rid cid a = ⟨h, [], some e⟩) ∧
      ∀ (fuel : Nat) (env : Env) (h : Heap) (a d sel : Nat)
        (srcs : List Nat) (ca : State) (x : PyVal) (ws : List Watcher)
        (vals : List PyVal) (e : PyErr),
        h.cells[a]? = some ca →
        ca.watchers = ws ++ [.derivedUpdate srcs sel d] →
        (∀ w ∈ ws, Watcher.clean env ca.value x w) →
        isCallable x = false →
        dumpEqCheck ca.value x = false →
        (h.setValueAt a x).readValues srcs = .ok vals →
        env.sels sel vals = .error e →
        d ≠ a → fuel ≠ 0 →
        (stateSet fuel env h a x).error = some e ∧
          (stateSet fuel env h a x).heap.valueOf d = h.valueOf d := by
  refine ⟨?_, ?_, ?_⟩
  · intro fuel env h cid k c e hc hfn hfuel
    obtain ⟨f, rfl⟩ := Nat.exists_eq_succ_of_ne_zero hfuel
    simp [stateSet, hc, hfn]
  · intro fuel env h rid cid a e hr
    simp [use_reducer_dispatch, hr]
  · intro fuel env h a d sel srcs ca x ws vals e hc hw hws hnc hgate hvals
      hsel hda hfuel
    obtain ⟨f, rfl⟩ := Nat.exists_eq_succ_of_ne_zero hfuel
    have hrun :
        runWatchersAux (stateSet f env) env (h.setValueAt a x) ca.watchers
            ca.value x =
          ⟨h.setValueAt a x, ws.map (flatEvent ca.value x), some e⟩ := by
      rw [hw,
        runWatchers_clean_front (stateSet f env) env (h.setValueAt a x) ws
          [.derivedUpdate srcs sel d] ca.value x hws]
      simp [runWatchersAux, hvals, hsel]
    have hset : stateSet (f + 1) env h a x =
        ⟨h.setValueAt a x, ws.map (flatEvent ca.value x), some e⟩ := by
      cases x with
      | vfun k => simp [isCallable] at hnc
      | prim p => simp [stateSet, setValueWith, hc, hgate, hrun]
      | vmodel s fs => simp [stateSet, setValueWith, hc, hgate, hrun]
      | vdict fs => simp [stateSet, setValueWith, hc, hgate, hrun]
    rw [hset]
    exact ⟨rfl, valueOf_setValueAt_ne h a d x (fun hax => hda hax.symm)⟩

theorem claim3_witness :
    stateSet 1 envA ⟨[⟨.prim (.pint 3), [], [], none⟩]⟩ 0 (.vfun 2) =
        ⟨⟨[⟨.prim (.pint 3), [], [], none⟩]⟩, [], some (.userError 2)⟩ ∧
      use_reducer_dispatch 1 envA ⟨[⟨.prim (.pint 3), [], [], none⟩]⟩ 2 0
          (.prim (.pint 1)) =
        ⟨⟨[⟨.prim (.pint 3), [], [], none⟩]⟩, [], some (.userError 2)⟩ ∧
      (stateSet 1 envA
            ⟨[⟨.prim (.pint 1), [.derivedUpdate [0] 9 1], [], none⟩,
              ⟨.prim (.pint 0), [], [], none⟩]⟩ 0
            (.prim (.pint 7))).error = some (.userError 9) ∧
        (stateSet 1 envA
              ⟨[⟨.prim (.pint 1), [.derivedUpdate [0] 9 1], [], none⟩,
                ⟨.prim (.pint 0), [], [], none⟩]⟩ 0
              (.prim (.pint 7))).heap.valueOf 1 =
          Heap.valueOf
            ⟨[⟨.prim (.pint 1), [.derivedUpdate [0] 9 1], [], none⟩,
              ⟨.prim (.pint 0), [], [], none⟩]⟩ 1 :=
  ⟨claim3_theorem.1 1 envA ⟨[⟨.prim (.pint 3), [], [], none⟩]⟩ 0 2
      ⟨.prim (.pint 3), [], [], none⟩ (.userError 2) rfl rfl (by decide),
    claim3_theorem.2.1 1 envA ⟨[⟨.prim (.pint 3), [], [], none⟩]⟩ 2 0
      (.prim (.pint 1)) (.userError 2) rfl,
    claim3_theorem.2.2 1 envA
      ⟨[⟨.prim (.pint 1), [.derivedUpdate [0] 9 1], [], none⟩,
        ⟨.prim (.pint 0), [], [], none⟩]⟩ 0 1 9 [0]
      ⟨.prim (.pint 1), [.derivedUpdate [0] 9 1], [], none⟩ (.prim (.pint 7))
      [] [.prim (.pint 7)] (.userError 9) rfl rfl (by simp) rfl rfl rfl rfl
      (by decide) (by decide)⟩

/-- C10: if a watcher raises during an accepted change, the new value is
already committed (a later `get` returns it), the exception propagates to
the caller of `set`, and both the watchers registered after the raising one
and every subscriber notification for that change are skipped (the emitted
events are exactly the calls of the preceding watchers and of the raising
one — no posts). -/
theorem claim10_theorem (fuel : Nat) (env : Env) (h : Heap) (cid k : Nat)
    (c : State) (nv : PyVal) (pre post : List Watcher) (e : PyErr)
    (hc : h.cells[cid]? = some c)
    (hw : c.watchers = pre ++ .ext k :: post)
    (hpre : ∀ w ∈ pre, Watcher.clean env c.value nv w)
    (hk : env.extw k c.value nv = some e)
    (hgate : dumpEqCheck c.value nv = false)
    (hnc : isCallable nv = false) (hfuel : fuel ≠ 0) :
    stateSet fuel env h cid nv =
        ⟨h.setValueAt cid nv,
          pre.map (flatEvent c.value nv) ++ [.watcherCall k c.value nv],
          some e⟩ ∧
      (stateSet fuel env h cid nv).heap.valueOf cid = nv := by
  obtain ⟨f, rfl⟩ := Nat.exists_eq_succ_of_ne_zero hfuel
  have hrun :
      runWatchersAux (stateSet f env) env (h.setValueAt cid nv) c.watchers
          c.value nv =
        ⟨h.setValueAt cid nv,
          pre.map (flatEvent c.value nv) ++ [.watcherCall k c.value nv],
          some e⟩ := by
    rw [hw,
      runWatchers_clean_front (stateSet f env) env (h.setValueAt cid nv) pre
        (.ext k :: post) c.value nv hpre]
    simp [runWatchersAux, hk]
  have hset : stateSet (f + 1) env h cid nv =
      ⟨h.setValueAt cid nv,
        pre.map (flatEvent c.value nv) ++ [.watcherCall k c.value nv],
        some e⟩ := by
    cases nv with
    | vfun m => simp [isCallable] at hnc
    | prim p => simp [stateSet, setValueWith, hc, hgate, hrun]
    | vmodel s fs => simp [stateSet, setValueWith, hc, hgate, hrun]
    | vdict fs => simp [stateSet, setValueWith, hc, hgate, hrun]
  rw [hset]
  exact ⟨rfl, valueOf_setValueAt_self h cid nv c hc⟩

theorem claim10_witness :
    stateSet 1 envA ⟨[⟨.prim (.pint 0), [.ext 7, .ext 99, .ext 8], [4],
            none⟩]⟩ 0 (.prim (.pint 5)) =
        ⟨Heap.setValueAt
            ⟨[⟨.prim (.pint 0), [.ext 7, .ext 99, .ext 8], [4], none⟩]⟩ 0
            (.prim (.pint 5)),
          [.watcherCall 7 (.prim (.pint 0)) (.prim (.pint 5)),
            .watcherCall 99 (.prim (.pint 0)) (.prim (.pint 5))],
          some (.userError 99)⟩ ∧
      (stateSet 1 envA ⟨[⟨.prim (.pint 0), [.ext 7, .ext 99, .ext 8], [4],
              none⟩]⟩ 0 (.prim (.pint 5))).heap.valueOf 0 =
        .prim (.pint 5) :=
  claim10_theorem 1 envA
    ⟨[⟨.prim (.pint 0), [.ext 7, .ext 99, .ext 8], [4], none⟩]⟩ 0 99
    ⟨.prim (.pint 0), [.ext 7, .ext 99, .ext 8], [4], none⟩ (.prim (.pint 5))
    [.ext 7] [.ext 8] (.userError 99) rfl rfl (by simp [Watcher.clean, envA])
    rfl rfl rfl (by decide)

/-- C1: constructing a `ContextProvider` — the precondition of any tree with
mounted nested providers — always raises `NameError`: line 197 of context.py
evaluates `context.name`, but no name `context` is bound in that scope (the
parameter is `reactive_context`), so no provider can ever be mounted even
though the `_find_provider` walk itself implements nearest-ancestor
resolution. -/
theorem claim1_theorem (reactive_context : Nat) (value : PyVal) :
    ContextProvider.init reactive_context value =
      .error (.nameError "NameError: name context is not defined") := rfl

/-- C4: `connect_effects` iterates `dir(type(widget))`, which CONTAINS
inherited attributes; so with `Base` declaring `@effect("count") def
onCount` and `Child(Base)` declaring nothing of its own (`childClass`), the
inherited method IS bound as a watcher of the "count" state — contradicting
the claim (and the code's own "not inherited" comment). -/
theorem claim4_theorem :
    childClass.own = [] ∧
      (∃ m, m ∈ childClass.base ∧ m.mname = "onCount" ∧
          m.targets = some [.sname "count"]) ∧
      connectEffects envA ⟨[⟨.prim (.pint 0), [], [], some "count"⟩]⟩ 0
          "count" 0 =
        ⟨[⟨.prim (.pint 0), [.meth 0 "onCount"], [], some "count"⟩]⟩ :=
  ⟨rfl, ⟨⟨"onCount", some [.sname "count"]⟩, by decide, rfl, rfl⟩, by decide⟩

/-- C7: when no ancestor of the consuming widget is a provider for the
context, `use_context` with `required = True` raises a not-found error
carrying the context's name and the widget's class name, and with
`required = False` returns a handle flagged `is_default = True` over a
fresh cell seeded with the context's default value; when the ancestor chain
does contain a provider, the returned handle has `is_default = False` and is
backed by that provider's cell. -/
theorem claim7_theorem (nodes : List WNode) (ctxs : List ContextObj)
    (h : Heap) (wid ctx : Nat) (subscribe : Bool) (ctxObj : ContextObj)
    (n : WNode) (hctx : ctxs[ctx]? = some ctxObj)
    (hwid : nodes[wid]? = some n) :
    ((∀ j ∈ ancestorChain nodes wid, providesAt nodes ctx j = false) →
        use_context nodes ctxs h wid ctx subscribe true =
            .error (.contextNotFound ctxObj.cname n.cls) ∧
          ∃ h2, use_context nodes ctxs h wid ctx subscribe false =
              .ok (h2, ⟨h.cells.length, wid, ctx, true⟩) ∧
            h2.valueOf h.cells.length = ctxObj.defaultValue) ∧
      ∀ p, (ancestorChain nodes wid).find? (providesAt nodes ctx) = some p →
        ∀ required, ∃ h2 cell,
          use_context nodes ctxs h wid ctx subscribe required =
            .ok (h2, ⟨cell, wid, ctx, false⟩) := by
  constructor
  · intro hnone
    have hfind : findProvider nodes wid ctx = none := by
      rw [findProvider_eq_find]
      exact List.find?_eq_none.mpr fun j hj => by simp [hnone j hj]
    constructor
    · simp [use_context, hctx, hwid, hfind, except_bind_ok, except_bind_error]
    · refine ⟨if subscribe then
          Heap.subscribeCell
            ⟨h.cells ++ [⟨ctxObj.defaultValue, [], [], ctxObj.cname⟩]⟩
            h.cells.length wid
        else ⟨h.cells ++ [⟨ctxObj.defaultValue, [], [], ctxObj.cname⟩]⟩,
        ?_, ?_⟩
      · simp [use_context, hctx, hwid, hfind, except_bind_ok,
          except_bind_error]
      · cases subscribe
        · simp [Heap.valueOf, List.getElem?_concat_length]
        · rw [if_pos rfl, valueOf_subscribeCell]
          simp [Heap.valueOf, List.getElem?_concat_length]
  · intro p hfind required
    have hp : providesAt nodes ctx p = true := List.find?_some hfind
    cases hpn : nodes[p]? with
    | none => simp [providesAt, hpn] at hp
    | some pn =>
        have hp' : isProviderFor pn ctx = true := by
          simpa [providesAt, hpn] using hp
        cases hk : pn.kind with
        | plain => simp [isProviderFor, hk] at hp'
        | storeProvider s cell => simp [isProviderFor, hk] at hp'
        | contextProvider c cell =>
            have hc : c = ctx := by simpa [isProviderFor, hk] using hp'
            subst hc
            have hfp : findProvider nodes wid c = some p := by
              rw [findProvider_eq_find]; exact hfind
            refine ⟨if subscribe then h.subscribeCell cell wid else h, cell,
              ?_⟩
            simp [use_context, hctx, hwid, hfp, hpn, providerCell, hk,
              except_bind_ok, except_bind_error]

theorem claim7_witness :
    (use_context nodes7 ctxs7 heap7 3 0 true true =
          .error (.contextNotFound (some "theme") "Lonely") ∧
        ∃ h2, use_context nodes7 ctxs7 heap7 3 0 true false =
            .ok (h2, ⟨1, 3, 0, true⟩) ∧
          h2.valueOf 1 = .prim (.pstr "light")) ∧
      ∃ h2 cell, use_context nodes7 ctxs7 heap7 2 0 true true =
        .ok (h2, ⟨cell, 2, 0, false⟩) :=
  ⟨(claim7_theorem nodes7 ctxs7 heap7 3 0 true
        ⟨.prim (.pstr "light"), some "theme"⟩ ⟨some 0, .plain, "Lonely"⟩ rfl
        rfl).1 (by decide),
    (claim7_theorem nodes7 ctxs7 heap7 2 0 true
        ⟨.prim (.pstr "light"), some "theme"⟩ ⟨some 1, .plain, "MyWidget"⟩ rfl
        rfl).2 1 (by decide) true⟩

theorem use_derived_ok (env : Env) (h : Heap) (widget : Nat)
    (srcs : List Nat) (sel : Nat) (name : Option String) (vals : List PyVal)
    (init : PyVal) (hread : h.readValues srcs = .ok vals)
    (hinit : env.sels sel vals = .ok init) :
    use_derived env h widget srcs sel name =
      .ok
        (match name with
         | some n =>
             connectEffects env
               (srcs.foldl
                 (fun acc s =>
                   acc.watchCell s (.derivedUpdate srcs sel h.cells.length))
                 ⟨h.cells ++ [⟨init, [], [widget], name⟩]⟩)
               widget n h.cells.length
         | none =>
             srcs.foldl
               (fun acc s =>
                 acc.watchCell s (.derivedUpdate srcs sel h.cells.length))
               ⟨h.cells ++ [⟨init, [], [widget], name⟩]⟩,
         h.cells.length) := by
  cases name <;> simp [use_derived, hread, hinit, except_bind_ok]

theorem any_isPostFor_map_flatEvent (d : Nat) (old nv : PyVal)
    (ws : List Watcher) :
    (ws.map (flatEvent old nv)).any (Ev.isPostFor d) = false := by
  induction ws with
  | nil => rfl
  | cons w rest ih => simp [isPostFor_flatEvent, ih]

theorem any_isPostFor_map_post_ne (d a : Nat) (old nv : PyVal)
    (subs : List Nat) (hne : ¬a = d) :
    (subs.map (fun s => Ev.post s a old nv)).any (Ev.isPostFor d) = false := by
  induction subs with
  | nil => rfl
  | cons s rest ih => simp [Ev.isPostFor, ih, hne]

theorem any_isPostFor_map_post_self (d : Nat) (old nv : PyVal) (s : Nat)
    (rest : List Nat) :
    ((s :: rest).map (fun w => Ev.post w d old nv)).any (Ev.isPostFor d) =
      true := by
  simp [Ev.isPostFor]

/-- One accepted `set` on source `a` of a mounted two-source derivation:
the derivation watcher re-reads BOTH sources, re-applies the selector, and
the derived cell `d` ends up holding (up to the equality gate) the selector
of the new `a` value and the untouched `b` value; `d`'s own notification
fires exactly when that recomputation differs from `d`'s previous value. -/
theorem derivation_step (f2 : Nat) (env : Env) (H : Heap) (a b d sel : Nat)
    (ca cd : State) (x computed : PyVal) (was : List Watcher)
    (hnr : noRaiseEnv env)
    (hca : H.cells[a]? = some ca)
    (hwa : ca.watchers = was ++ [.derivedUpdate [a, b] sel d])
    (hflata : ∀ w ∈ was, w.isFlat)
    (hcd : H.cells[d]? = some cd)
    (hflatd : ∀ w ∈ cd.watchers, w.isFlat)
    (hb : b < H.cells.length)
    (hda : d ≠ a) (hdb : d ≠ b) (hab : a ≠ b)
    (hnc : isCallable x = false)
    (hacc : dumpEqCheck ca.value x = false)
    (hcomp : env.sels sel [x, H.valueOf b] = .ok computed)
    (hcompnc : isCallable computed = false)
    (hcomprefl : dumpEqCheck computed computed = true) :
    (stateSet (f2 + 2) env H a x).error = none ∧
      (stateSet (f2 + 2) env H a x).heap.valueOf a = x ∧
      (stateSet (f2 + 2) env H a x).heap.valueOf b = H.valueOf b ∧
      dumpEqCheck ((stateSet (f2 + 2) env H a x).heap.valueOf d) computed =
        true ∧
      (stateSet (f2 + 2) env H a x).events.any (Ev.isPostFor d) =
        ((!dumpEqCheck cd.value computed) && cd.subscribers ≠ []) := by
  obtain ⟨cb, hcb⟩ : ∃ cb, H.cells[b]? = some cb :=
    ⟨H.cells[b], List.getElem?_eq_getElem hb⟩
  have had : a ≠ d := fun hx => hda hx.symm
  have hvb : H.valueOf b = cb.value := by simp [Heap.valueOf, hcb]
  have hcomp' : env.sels sel [x, cb.value] = .ok computed := by
    rw [hvb] at hcomp; exact hcomp
  have hclean_was : ∀ w ∈ was, Watcher.clean env ca.value x w := fun w hw =>
    noRaise_clean env hnr ca.value x w (hflata w hw)
  have hclean_d :
      ∀ w ∈ cd.watchers, Watcher.clean env cd.value computed w := fun w hw =>
    noRaise_clean env hnr cd.value computed w (hflatd w hw)
  -- the heap right after committing x on a
  have hH1a : (H.setValueAt a x).cells[a]? = some { ca with value := x } :=
    cell?_setValueAt_self H a x ca hca
  have hH1b : (H.setValueAt a x).cells[b]? = some cb := by
    rw [cell?_setValueAt_ne H a b x hab]; exact hcb
  have hH1d : (H.setValueAt a x).cells[d]? = some cd := by
    rw [cell?_setValueAt_ne H a d x had]; exact hcd
  have hread' : (H.setValueAt a x).readValues [a, b] = .ok [x, cb.value] := by
    simp [Heap.readValues, hH1a, hH1b]
  -- the nested set on the derived cell
  have hinner : stateSet (f2 + 1) env (H.setValueAt a x) d computed =
      (if dumpEqCheck cd.value computed then ⟨H.setValueAt a x, [], none⟩
       else
        ⟨(H.setValueAt a x).setValueAt d computed,
          cd.watchers.map (flatEvent cd.value computed) ++
            cd.subscribers.map (fun s => .post s d cd.value computed),
          none⟩) := by
    rw [stateSet_not_callable f2 env (H.setValueAt a x) d computed hcompnc]
    by_cases g : dumpEqCheck cd.value computed = true
    · simp [setValueWith, hH1d, g]
    · have hrd :
          runWatchersAux (stateSet f2 env) env
              ((H.setValueAt a x).setValueAt d computed) cd.watchers
              cd.value computed =
            ⟨(H.setValueAt a x).setValueAt d computed,
              cd.watchers.map (flatEvent cd.value computed), none⟩ :=
        runWatchers_clean (stateSet f2 env) env _ cd.watchers cd.value
          computed hclean_d
      have hsubs :
          ((H.setValueAt a x).setValueAt d computed).cells[d]? =
            some { cd with value := computed } :=
        cell?_setValueAt_self (H.setValueAt a x) d computed cd hH1d
      simp [setValueWith, hH1d, g, hrd, hsubs]
  -- the derivation watcher alone
  have hdu : runWatchersAux (stateSet (f2 + 1) env) env (H.setValueAt a x)
        [.derivedUpdate [a, b] sel d] ca.value x =
      (if dumpEqCheck cd.value computed then ⟨H.setValueAt a x, [], none⟩
       else
        ⟨(H.setValueAt a x).setValueAt d computed,
          cd.watchers.map (flatEvent cd.value computed) ++
            cd.subscribers.map (fun s => .post s d cd.value computed),
          none⟩) := by
    by_cases g : dumpEqCheck cd.value computed = true
    · simp [runWatchersAux, hread', hcomp', hinner, g]
    · simp [runWatchersAux, hread', hcomp', hinner, g]
  -- the full watcher list of a
  have hrun : runWatchersAux (stateSet (f2 + 1) env) env (H.setValueAt a x)
        ca.watchers ca.value x =
      (if dumpEqCheck cd.value computed then
        ⟨H.setValueAt a x, was.map (flatEvent ca.value x), none⟩
       else
        ⟨(H.setValueAt a x).setValueAt d computed,
          was.map (flatEvent ca.value x) ++
            (cd.watchers.map (flatEvent cd.value computed) ++
              cd.subscribers.map (fun s => .post s d cd.value computed)),
          none⟩) := by
    rw [hwa,
      runWatchers_clean_front (stateSet (f2 + 1) env) env (H.setValueAt a x)
        was [.derivedUpdate [a, b] sel d] ca.value x hclean_was, hdu]
    by_cases g : dumpEqCheck cd.value computed = true <;> simp [g]
  -- the whole outer set
  have hfull : stateSet (f2 + 2) env H a x =
      (if dumpEqCheck cd.value computed then
        ⟨H.setValueAt a x,
          was.map (flatEvent ca.value x) ++
            ca.subscribers.map (fun s => .post s a ca.value x), none⟩
       else
        ⟨(H.setValueAt a x).setValueAt d computed,
          (was.map (flatEvent ca.value x) ++
            (cd.watchers.map (flatEvent cd.value computed) ++
              cd.subscribers.map (fun s => .post s d cd.value computed))) ++
            ca.subscribers.map (fun s => .post s a ca.value x),
          none⟩) := by
    have h21 : stateSet (f2 + 2) env H a x =
        setValueWith (stateSet (f2 + 1) env) env H a x :=
      stateSet_not_callable (f2 + 1) env H a x hnc
    rw [h21]
    by_cases g : dumpEqCheck cd.value computed = true
    · have hsubsa : (H.setValueAt a x).cells[a]? = some { ca with value := x } :=
        hH1a
      simp [setValueWith, hca, hacc, hrun, g, hsubsa]
    · have hsubsa :
          ((H.setValueAt a x).setValueAt d computed).cells[a]? =
            some { ca with value := x } := by
        rw [cell?_setValueAt_ne (H.setValueAt a x) d a computed hda]
        exact hH1a
      simp [setValueWith, hca, hacc, hrun, g, hsubsa]
  by_cases g : dumpEqCheck cd.value computed = true
  · rw [hfull]
    refine ⟨by simp [g], ?_, ?_, ?_, ?_⟩
    · simp [g, valueOf_setValueAt_self H a x ca hca]
    · simp [g, valueOf_setValueAt_ne H a b x hab]
    · have : (H.setValueAt a x).valueOf d = cd.value := by
        simp [Heap.valueOf, hH1d]
      simp [g, this]
    · simp [g, List.any_append, any_isPostFor_map_flatEvent,
        any_isPostFor_map_post_ne d a ca.value x ca.subscribers
          (fun hx => hda hx.symm)]
  · rw [hfull]
    have hvd :
        ((H.setValueAt a x).setValueAt d computed).valueOf d = computed :=
      valueOf_setValueAt_self (H.setValueAt a x) d computed cd hH1d
    have hvb2 :
        ((H.setValueAt a x).setValueAt d computed).valueOf b = cb.value := by
      rw [valueOf_setValueAt_ne (H.setValueAt a x) d b computed hdb]
      simp [Heap.valueOf, hH1b]
    have hva2 :
        ((H.setValueAt a x).setValueAt d computed).valueOf a = x := by
      rw [valueOf_setValueAt_ne (H.setValueAt a x) d a computed hda]
      simp [Heap.valueOf, hH1a]
    refine ⟨by simp [g], by simp [g, hva2], by simp [g, hvb2, hvb], ?_, ?_⟩
    · simp [g, hvd, hcomprefl]
    · cases hs : cd.subscribers with
      | nil =>
          simp [g, hs, List.any_append, any_isPostFor_map_flatEvent,
            any_isPostFor_map_post_ne d a ca.value x ca.subscribers
              (fun hx => hda hx.symm)]
      | cons s rest =>
          simp [g, hs, List.any_append, any_isPostFor_map_flatEvent,
            any_isPostFor_map_post_ne d a ca.value x ca.subscribers
              (fun hx => hda hx.symm), Ev.isPostFor]

theorem length_appendWatchers (h : Heap) (cid : Nat) (ws : List Watcher) :
    (h.appendWatchers cid ws).cells.length = h.cells.length := by
  unfold Heap.appendWatchers
  cases hc : h.cells[cid]? <;> simp

theorem mem_of_cell? (h : Heap) (i : Nat) (c : State)
    (hc : h.cells[i]? = some c) : c ∈ h.cells := by
  obtain ⟨hl, rfl⟩ := List.getElem?_eq_some_iff.mp hc
  exact List.getElem_mem hl

/-- The post-`use_derived` heap, in normal form: a fresh derived cell at
index `len` (watchers `ms`, all effect wrappers), and the shared derivation
watcher appended to both sources. -/
theorem claim6_core (f2 : Nat) (env : Env) (h : Heap)
    (widget a b sel : Nat) (name : Option String)
    (x init computed : PyVal) (ca cb : State) (ms : List Watcher)
    (len : Nat) (du : Watcher) (X : Heap)
    (hnr : noRaiseEnv env)
    (hflat : ∀ c ∈ h.cells, ∀ w ∈ c.watchers, w.isFlat)
    (hmsflat : ∀ w ∈ ms, w.isFlat)
    (hab : a ≠ b) (hca : h.cells[a]? = some ca) (hcb : h.cells[b]? = some cb)
    (hnc : isCallable x = false)
    (hacc : dumpEqCheck ca.value x = false)
    (hcomp : env.sels sel [x, cb.value] = .ok computed)
    (hcompnc : isCallable computed = false)
    (hcomprefl : dumpEqCheck computed computed = true)
    (hlen : len = h.cells.length)
    (hdueq : du = .derivedUpdate [a, b] sel len)
    (hXdef : X =
      ((Heap.watchCell (Heap.watchCell ⟨h.cells ++
          [⟨init, [], [widget], name⟩]⟩ a du) b du).appendWatchers len ms)) :
    X.valueOf len = init ∧
      (stateSet (f2 + 2) env X a x).error = none ∧
      (stateSet (f2 + 2) env X a x).heap.valueOf a = x ∧
      (stateSet (f2 + 2) env X a x).heap.valueOf b = cb.value ∧
      dumpEqCheck ((stateSet (f2 + 2) env X a x).heap.valueOf len) computed =
        true ∧
      (stateSet (f2 + 2) env X a x).events.any (Ev.isPostFor len) =
        !dumpEqCheck init computed := by
  have ha : a < h.cells.length := (List.getElem?_eq_some_iff.mp hca).1
  have hb : b < h.cells.length := (List.getElem?_eq_some_iff.mp hcb).1
  have hda : len ≠ a := by rw [hlen]; exact Nat.ne_of_gt ha
  have hdb : len ≠ b := by rw [hlen]; exact Nat.ne_of_gt hb
  have h1a_a : (⟨h.cells ++ [⟨init, [], [widget], name⟩]⟩ : Heap).cells[a]? =
      some ca := by
    simp [List.getElem?_append_left ha, hca]
  have h1a_b : (⟨h.cells ++ [⟨init, [], [widget], name⟩]⟩ : Heap).cells[b]? =
      some cb := by
    simp [List.getElem?_append_left hb, hcb]
  have h1a_len :
      (⟨h.cells ++ [⟨init, [], [widget], name⟩]⟩ : Heap).cells[len]? =
        some ⟨init, [], [widget], name⟩ := by
    rw [hlen]
    simp [List.getElem?_concat_length]
  have hXa : X.cells[a]? =
      some { ca with watchers := ca.watchers ++ [du] } := by
    rw [hXdef, appendWatchers_cell?_ne _ len a ms hda,
      watchCell_cell?_ne _ b a du (fun hx => hab hx.symm),
      watchCell_cell?_self _ a du ca h1a_a]
  have hXb : X.cells[b]? =
      some { cb with watchers := cb.watchers ++ [du] } := by
    have h2b : (Heap.watchCell ⟨h.cells ++ [⟨init, [], [widget], name⟩]⟩ a
        du).cells[b]? = some cb := by
      rw [watchCell_cell?_ne _ a b du hab]; exact h1a_b
    rw [hXdef, appendWatchers_cell?_ne _ len b ms hdb,
      watchCell_cell?_self _ b du cb h2b]
  have hXlen : X.cells[len]? = some ⟨init, ms, [widget], name⟩ := by
    have h2len : (Heap.watchCell (Heap.watchCell
        ⟨h.cells ++ [⟨init, [], [widget], name⟩]⟩ a du) b du).cells[len]? =
        some ⟨init, [], [widget], name⟩ := by
      rw [watchCell_cell?_ne _ b len du (fun hx => hdb hx.symm),
        watchCell_cell?_ne _ a len du (fun hx => hda hx.symm)]
      exact h1a_len
    rw [hXdef]
    simpa using appendWatchers_cell?_self _ len ms _ h2len
  have hXvb : X.valueOf b = cb.value := by simp [Heap.valueOf, hXb]
  have hXlength : X.cells.length = h.cells.length + 1 := by
    rw [hXdef, length_appendWatchers]
    unfold Heap.watchCell
    rw [length_appendWatchers, length_appendWatchers]
    simp
  have hwa : ({ ca with watchers := ca.watchers ++ [du] } : State).watchers =
      ca.watchers ++ [.derivedUpdate [a, b] sel len] := by
    rw [hdueq]
  have hstep := derivation_step f2 env X a b len sel
    { ca with watchers := ca.watchers ++ [du] } ⟨init, ms, [widget], name⟩
    x computed ca.watchers hnr hXa hwa
    (fun w hw => hflat ca (mem_of_cell? h a ca hca) w hw)
    hXlen (fun w hw => hmsflat w hw)
    (by rw [hXlength]; omega)
    hda hdb hab hnc hacc (by rw [hXvb]; exact hcomp) hcompnc hcomprefl
  obtain ⟨he, hva, hvb2, hvd, hev⟩ := hstep
  refine ⟨by simp [Heap.valueOf, hXlen], he, hva, ?_, hvd, ?_⟩
  · rw [hvb2, hXvb]
  · rw [hev]
    simp

/-- C6: for a derivation `d = use_derived(w, [a, b], f)` over distinct live
sources in a world whose watchers are effect wrappers and plain callbacks
(none raising), an accepted `set(x)` on `a` raises no error, commits `x` on
`a`, leaves `b` untouched, re-reads BOTH sources and leaves `d` holding (up
to the `_set_value` equality gate) `f(x, b.get())` — and `d`'s own change
notification is posted iff that recomputation differs from `d`'s previous
value (its creation-time value `init = f(a₀, b₀)`). -/
theorem claim6_theorem (f2 : Nat) (env : Env) (h : Heap)
    (widget a b sel : Nat) (name : Option String) (h1 : Heap) (d : Nat)
    (x init computed : PyVal)
    (hnr : noRaiseEnv env)
    (hflat : ∀ c ∈ h.cells, ∀ w ∈ c.watchers, w.isFlat)
    (hab : a ≠ b) (ha : a < h.cells.length) (hb : b < h.cells.length)
    (hinit : env.sels sel [h.valueOf a, h.valueOf b] = .ok init)
    (hud : use_derived env h widget [a, b] sel name = .ok (h1, d))
    (hnc : isCallable x = false)
    (hacc : dumpEqCheck (h.valueOf a) x = false)
    (hcomp : env.sels sel [x, h.valueOf b] = .ok computed)
    (hcompnc : isCallable computed = false)
    (hcomprefl : dumpEqCheck computed computed = true) :
    h1.valueOf d = init ∧
      (stateSet (f2 + 2) env h1 a x).error = none ∧
      (stateSet (f2 + 2) env h1 a x).heap.valueOf a = x ∧
      (stateSet (f2 + 2) env h1 a x).heap.valueOf b = h.valueOf b ∧
      dumpEqCheck ((stateSet (f2 + 2) env h1 a x).heap.valueOf d) computed =
        true ∧
      (stateSet (f2 + 2) env h1 a x).events.any (Ev.isPostFor d) =
        !dumpEqCheck (h1.valueOf d) computed := by
  obtain ⟨ca, hca⟩ : ∃ ca, h.cells[a]? = some ca :=
    ⟨h.cells[a], List.getElem?_eq_getElem ha⟩
  obtain ⟨cb, hcb⟩ : ∃ cb, h.cells[b]? = some cb :=
    ⟨h.cells[b], List.getElem?_eq_getElem hb⟩
  have hva : h.valueOf a = ca.value := by simp [Heap.valueOf, hca]
  have hvb : h.valueOf b = cb.value := by simp [Heap.valueOf, hcb]
  have hread : h.readValues [a, b] = .ok [ca.value, cb.value] := by
    simp [Heap.readValues, hca, hcb]
  rw [hva, hvb] at hinit
  rw [hva] at hacc
  rw [hvb] at hcomp
  rw [use_derived_ok env h widget [a, b] sel name [ca.value, cb.value] init
    hread hinit] at hud
  cases name with
  | none =>
      simp only [List.foldl_cons, List.foldl_nil, Except.ok.injEq,
        Prod.mk.injEq] at hud
      obtain ⟨hh1, hd⟩ := hud
      subst hd
      have hXdef : h1 =
          ((Heap.watchCell (Heap.watchCell ⟨h.cells ++
              [⟨init, [], [widget], none⟩]⟩ a
              (.derivedUpdate [a, b] sel h.cells.length)) b
              (.derivedUpdate [a, b] sel h.cells.length)).appendWatchers
            h.cells.length []) := by
        rw [appendWatchers_nil]
        exact hh1.symm
      obtain ⟨hvd0, he, hva', hvb', hvd, hev⟩ :=
        claim6_core f2 env h widget a b sel none x init computed ca cb []
          h.cells.length (.derivedUpdate [a, b] sel h.cells.length) h1
          hnr hflat (by simp) hab hca hcb hnc hacc hcomp hcompnc hcomprefl
          rfl rfl hXdef
      exact ⟨hvd0, he, hva', by rw [hvb', hvb], hvd, by rw [hev, hvd0]⟩
  | some n =>
      simp only [List.foldl_cons, List.foldl_nil, Except.ok.injEq,
        Prod.mk.injEq] at hud
      obtain ⟨hh1, hd⟩ := hud
      subst hd
      rw [connectEffects_eq] at hh1
      have hXdef : h1 =
          ((Heap.watchCell (Heap.watchCell ⟨h.cells ++
              [⟨init, [], [widget], some n⟩]⟩ a
              (.derivedUpdate [a, b] sel h.cells.length)) b
              (.derivedUpdate [a, b] sel h.cells.length)).appendWatchers
            h.cells.length
            ((effectMethodNames (env.wcls widget) n).map
              (Watcher.meth widget))) := hh1.symm
      obtain ⟨hvd0, he, hva', hvb', hvd, hev⟩ :=
        claim6_core f2 env h widget a b sel (some n) x init computed ca cb
          ((effectMethodNames (env.wcls widget) n).map (Watcher.meth widget))
          h.cells.length (.derivedUpdate [a, b] sel h.cells.length) h1
          hnr hflat
          (by
            intro w hw
            obtain ⟨nm, _, rfl⟩ := List.mem_map.mp hw
            rfl)
          hab hca hcb hnc hacc hcomp hcompnc hcomprefl rfl rfl hXdef
      exact ⟨hvd0, he, hva', by rw [hvb', hvb], hvd, by rw [hev, hvd0]⟩

theorem claim6_witness :
    heap6d.valueOf 2 = .prim (.pint 7) ∧
      (stateSet 2 envB heap6d 0 (.prim (.pint 10))).error = none ∧
      (stateSet 2 envB heap6d 0 (.prim (.pint 10))).heap.valueOf 0 =
        .prim (.pint 10) ∧
      (stateSet 2 envB heap6d 0 (.prim (.pint 10))).heap.valueOf 1 =
        heap6.valueOf 1 ∧
      dumpEqCheck
          ((stateSet 2 envB heap6d 0 (.prim (.pint 10))).heap.valueOf 2)
          (.prim (.pint 14)) = true ∧
      (stateSet 2 envB heap6d 0 (.prim (.pint 10))).events.any
          (Ev.isPostFor 2) =
        !dumpEqCheck (heap6d.valueOf 2) (.prim (.pint 14)) :=
  claim6_theorem 0 envB heap6 9 0 1 0 none heap6d 2 (.prim (.pint 10))
    (.prim (.pint 7)) (.prim (.pint 14))
    ⟨fun _ _ _ => rfl, fun _ _ _ _ => rfl⟩ (by decide) (by decide)
    (by decide) (by decide) rfl rfl rfl rfl rfl rfl rfl

theorem runWatchers_flat_heap (setter : Heap → Nat → PyVal → Outcome)
    (env : Env) (h : Heap) (ws : List Watcher) (old nv : PyVal)
    (hf : ∀ w ∈ ws, w.isFlat) :
    (runWatchersAux setter env h ws old nv).heap = h := by
  induction ws with
  | nil => rfl
  | cons w rest ih =>
      have hw := hf w (List.mem_cons_self w rest)
      have hr : ∀ x ∈ rest, x.isFlat := fun x hx =>
        hf x (List.mem_cons_of_mem w hx)
      cases w with
      | ext k =>
          cases he : env.extw k old nv <;>
            simp [runWatchersAux, he, ih hr]
      | meth wid m =>
          cases he : env.methw wid m old nv <;>
            simp [runWatchersAux, he, ih hr]
      | derivedUpdate s1 s2 s3 => simp [Watcher.isFlat] at hw

theorem setValueWith_flat_shape (setter : Heap → Nat → PyVal → Outcome)
    (env : Env) (h : Heap) (cid : Nat) (nv : PyVal)
    (hf : ∀ c, h.cells[cid]? = some c → ∀ w ∈ c.watchers, w.isFlat) :
    (setValueWith setter env h cid nv).heap = h ∨
      (setValueWith setter env h cid nv).heap = h.setValueAt cid nv := by
  unfold setValueWith
  cases hc : h.cells[cid]? with
  | none => exact Or.inl rfl
  | some c =>
      cases g : dumpEqCheck c.value nv with
      | true => simp [g]
      | false =>
          right
          have hrw := runWatchers_flat_heap setter env (h.setValueAt cid nv)
            c.watchers c.value nv (hf c hc)
          simp only [g, Bool.false_eq_true, if_false]
          split
          · exact hrw
          · exact hrw

theorem stateSet_flat_shape (fuel : Nat) (env : Env) (h : Heap) (cid : Nat)
    (v : PyVal)
    (hf : ∀ c, h.cells[cid]? = some c → ∀ w ∈ c.watchers, w.isFlat) :
    (stateSet fuel env h cid v).heap = h ∨
      ∃ nv, (stateSet fuel env h cid v).heap = h.setValueAt cid nv := by
  cases fuel with
  | zero => exact Or.inl rfl
  | succ f =>
      cases v with
      | vfun k =>
          cases hc : h.cells[cid]? with
          | none => exact Or.inl (by simp [stateSet, hc])
          | some c =>
              cases hfn : env.fns k c.value with
              | error e => exact Or.inl (by simp [stateSet, hc, hfn])
              | ok nv =>
                  rw [show stateSet (f + 1) env h cid (.vfun k) =
                      setValueWith (stateSet f env) env h cid nv by
                    simp [stateSet, hc, hfn]]
                  exact (setValueWith_flat_shape (stateSet f env) env h cid nv
                    hf).imp id fun hx => ⟨nv, hx⟩
      | prim p =>
          rw [stateSet_not_callable f env h cid (.prim p) rfl]
          exact (setValueWith_flat_shape (stateSet f env) env h cid _
            hf).imp id fun hx => ⟨_, hx⟩
      | vmodel s fs =>
          rw [stateSet_not_callable f env h cid (.vmodel s fs) rfl]
          exact (setValueWith_flat_shape (stateSet f env) env h cid _
            hf).imp id fun hx => ⟨_, hx⟩
      | vdict fs =>
          rw [stateSet_not_callable f env h cid (.vdict fs) rfl]
          exact (setValueWith_flat_shape (stateSet f env) env h cid _
            hf).imp id fun hx => ⟨_, hx⟩

theorem flat_setValueAt (h : Heap) (cid i : Nat) (v : PyVal)
    (hf : ∀ c, h.cells[i]? = some c → ∀ w ∈ c.watchers, w.isFlat) :
    ∀ c, (h.setValueAt cid v).cells[i]? = some c →
      ∀ w ∈ c.watchers, w.isFlat := by
  intro c hc
  by_cases hci : cid = i
  · subst hci
    cases hc0 : h.cells[cid]? with
    | none =>
        unfold Heap.setValueAt at hc
        rw [hc0] at hc
        rw [hc0] at hc
        cases hc
    | some c0 =>
        rw [cell?_setValueAt_self h cid v c0 hc0] at hc
        cases hc
        exact hf c0 hc0
  · rw [cell?_setValueAt_ne h cid i v hci] at hc
    exact hf c hc

theorem dispatch_flat_shape (fuel : Nat) (env : Env) (store : StoreObj)
    (h : Heap) (cid : Nat) (a : PyVal)
    (hf : ∀ c, h.cells[cid]? = some c → ∀ w ∈ c.watchers, w.isFlat) :
    (storeProviderDispatch fuel env store h cid a).heap = h ∨
      ∃ nv, (storeProviderDispatch fuel env store h cid a).heap =
        h.setValueAt cid nv := by
  simp only [storeProviderDispatch]
  cases hr : env.reducers store.reducerId (h.valueOf cid) a with
  | error e => exact Or.inl rfl
  | ok nv => exact stateSet_flat_shape fuel env h cid nv hf

theorem dispatchSeq_frame (fuel : Nat) (env : Env) (store : StoreObj)
    (cid : Nat) (acts : List PyVal) (h : Heap) (j : Nat) (hj : cid ≠ j)
    (hf : ∀ c, h.cells[cid]? = some c → ∀ w ∈ c.watchers, w.isFlat) :
    (dispatchSeq fuel env store cid h acts).heap.cells[j]? = h.cells[j]? := by
  induction acts generalizing h with
  | nil => rfl
  | cons a rest ih =>
      have hshape := dispatch_flat_shape fuel env store h cid a hf
      have hframe :
          (storeProviderDispatch fuel env store h cid a).heap.cells[j]? =
            h.cells[j]? := by
        rcases hshape with he | ⟨nv, he⟩
        · rw [he]
        · rw [he]
          exact cell?_setValueAt_ne h cid j nv hj
      have hf' : ∀ c,
          (storeProviderDispatch fuel env store h cid a).heap.cells[cid]? =
            some c → ∀ w ∈ c.watchers, w.isFlat := by
        rcases hshape with he | ⟨nv, he⟩
        · rw [he]; exact hf
        · rw [he]; exact flat_setValueAt h cid cid nv hf
      unfold dispatchSeq
      cases ho : (storeProviderDispatch fuel env store h cid a).error with
      | some e => simp only [ho]; exact hframe
      | none =>
          simp only [ho]
          rw [ih _ hf']
          exact hframe

theorem subscribeCell_cell?_ne (h : Heap) (cid wid j : Nat) (hj : cid ≠ j) :
    (h.subscribeCell cid wid).cells[j]? = h.cells[j]? := by
  unfold Heap.subscribeCell
  cases hc : h.cells[cid]? with
  | none => rfl
  | some c =>
      by_cases hm : wid ∈ c.subscribers
      · simp [hm]
      · simp [hm, List.getElem?_set_ne hj]

theorem valueOf_appendWatchers (h : Heap) (cid j : Nat) (ws : List Watcher) :
    (h.appendWatchers cid ws).valueOf j = h.valueOf j := by
  unfold Heap.appendWatchers Heap.valueOf
  cases hc : h.cells[cid]? with
  | none => rfl
  | some c =>
      by_cases hj : cid = j
      · subst hj
        rw [List.getElem?_set_eq_of_lt _
          (List.getElem?_eq_some_iff.mp hc).1, hc]
      · rw [List.getElem?_set_ne hj]

theorem flat_subscribeCell (h : Heap) (cid wid : Nat)
    (hf : ∀ c ∈ h.cells, ∀ w ∈ c.watchers, w.isFlat) :
    ∀ c ∈ (h.subscribeCell cid wid).cells, ∀ w ∈ c.watchers, w.isFlat := by
  unfold Heap.subscribeCell
  cases hc : h.cells[cid]? with
  | none => exact hf
  | some c =>
      by_cases hm : wid ∈ c.subscribers
      · simp only [hm, if_true]; exact hf
      · simp only [hm, if_false]
        intro c' hc' w hw
        rcases List.mem_or_eq_of_mem_set hc' with hmem | rfl
        · exact hf c' hmem w hw
        · exact hf c (mem_of_cell? h cid c hc) w hw

theorem flat_appendWatchers (h : Heap) (cid : Nat) (ws : List Watcher)
    (hf : ∀ c ∈ h.cells, ∀ w ∈ c.watchers, w.isFlat)
    (hws : ∀ w ∈ ws, w.isFlat) :
    ∀ c ∈ (h.appendWatchers cid ws).cells, ∀ w ∈ c.watchers, w.isFlat := by
  unfold Heap.appendWatchers
  cases hc : h.cells[cid]? with
  | none => exact hf
  | some c =>
      intro c' hc' w hw
      rcases List.mem_or_eq_of_mem_set hc' with hmem | rfl
      · exact hf c' hmem w hw
      · rcases List.mem_append.mp hw with h1 | h2
        · exact hf c (mem_of_cell? h cid c hc) w h1
        · exact hws w h2

theorem flat_append_cell (h : Heap) (c : State)
    (hf : ∀ x ∈ h.cells, ∀ w ∈ x.watchers, w.isFlat) (hc : c.watchers = []) :
    ∀ x ∈ (h.cells ++ [c]), ∀ w ∈ x.watchers, w.isFlat := by
  intro x hx w hw
  rcases List.mem_append.mp hx with hm | hm
  · exact hf x hm w hw
  · rw [List.mem_singleton] at hm
    subst hm
    rw [hc] at hw
    cases hw

theorem store_use_ok (env : Env) (nodes : List WNode) (h : Heap)
    (sid : Nat) (store : StoreObj) (wid p cell : Nat) (n : WNode)
    (hfp : findStoreProvider nodes wid sid = some p)
    (hn : nodes[p]? = some n) (hk : n.kind = .storeProvider sid cell) :
    Store.use env nodes h sid store wid true =
      .ok (connectStoreEffects env (h.subscribeCell cell wid) wid sid cell,
        ⟨cell, sid⟩) := by
  simp [Store.use, hfp, hn, storeProviderCell, hk, except_bind_ok]

/-- C8: two `StoreProvider` instances for the same store hold fully
independent cell + dispatcher pairs: each `__init__` allocates a fresh cell
(`c1 ≠ c2`), `Store.use` under each provider resolves to that provider's own
cell, and any sequence of actions dispatched through the first handle's
dispatcher leaves the second provider's cell untouched. -/
theorem claim8_theorem (fuel : Nat) (env : Env) (h h1 h2 : Heap)
    (c1 c2 : Nat) (store : StoreObj) (sid : Nat) (nodes : List WNode)
    (wa wb pa pb : Nat) (na nb : WNode) (acts : List PyVal)
    (hflat : ∀ c ∈ h.cells, ∀ w ∈ c.watchers, w.isFlat)
    (h1def : StoreProvider.init store h = (h1, c1))
    (h2def : StoreProvider.init store h1 = (h2, c2))
    (hfa : findStoreProvider nodes wa sid = some pa)
    (hfb : findStoreProvider nodes wb sid = some pb)
    (hna : nodes[pa]? = some na) (hnb : nodes[pb]? = some nb)
    (hka : na.kind = .storeProvider sid c1)
    (hkb : nb.kind = .storeProvider sid c2) :
    c1 ≠ c2 ∧
      ∃ h3 h4,
        Store.use env nodes h2 sid store wa true = .ok (h3, ⟨c1, sid⟩) ∧
          Store.use env nodes h3 sid store wb true = .ok (h4, ⟨c2, sid⟩) ∧
          h4.valueOf c2 = store.initial ∧
          (dispatchSeq fuel env store c1 h4 acts).heap.valueOf c2 =
            h4.valueOf c2 := by
  obtain ⟨hh1, hc1⟩ : h1 = ⟨h.cells ++ [⟨store.initial, [], [], store.sname⟩]⟩
      ∧ c1 = h.cells.length := by
    have := h1def.symm
    unfold StoreProvider.init at this
    exact ⟨congrArg Prod.fst this, congrArg Prod.snd this⟩
  obtain ⟨hh2, hc2⟩ : h2 = ⟨h1.cells ++ [⟨store.initial, [], [], store.sname⟩]⟩
      ∧ c2 = h1.cells.length := by
    have := h2def.symm
    unfold StoreProvider.init at this
    exact ⟨congrArg Prod.fst this, congrArg Prod.snd this⟩
  have hlen1 : h1.cells.length = h.cells.length + 1 := by rw [hh1]; simp
  have hne : c1 ≠ c2 := by rw [hc1, hc2, hlen1]; omega
  have hc1lt : c1 < h1.cells.length := by rw [hc1, hlen1]; omega
  -- values at c2 in h2
  have h2c2 : h2.cells[c2]? = some ⟨store.initial, [], [], store.sname⟩ := by
    rw [hh2, hc2]
    simp [List.getElem?_concat_length]
  -- the two consumptions
  have huseA := store_use_ok env nodes h2 sid store wa pa c1 na hfa hna hka
  set h3 := connectStoreEffects env (h2.subscribeCell c1 wa) wa sid c1 with h3def
  have huseB := store_use_ok env nodes h3 sid store wb pb c2 nb hfb hnb hkb
  set h4 := connectStoreEffects env (h3.subscribeCell c2 wb) wb sid c2 with h4def
  -- c2's cell is untouched by consuming under provider A
  have h3c2 : h3.cells[c2]? = some ⟨store.initial, [], [], store.sname⟩ := by
    rw [h3def, connectStoreEffects_eq,
      appendWatchers_cell?_ne _ c1 c2 _ hne,
      subscribeCell_cell?_ne h2 c1 wa c2 hne]
    exact h2c2
  have h4v : h4.valueOf c2 = store.initial := by
    rw [h4def, connectStoreEffects_eq, valueOf_appendWatchers,
      valueOf_subscribeCell]
    simp [Heap.valueOf, h3c2]
  -- flatness of h4
  have hflat1 : ∀ c ∈ h1.cells, ∀ w ∈ c.watchers, w.isFlat := by
    rw [hh1]; exact flat_append_cell h _ hflat rfl
  have hflat2 : ∀ c ∈ h2.cells, ∀ w ∈ c.watchers, w.isFlat := by
    rw [hh2]; exact flat_append_cell h1 _ hflat1 rfl
  have hmeths : ∀ wid' : Nat, ∀ w ∈
      ((storeEffectMethodNames (env.wcls wid') sid).map
        (Watcher.meth wid')), w.isFlat := by
    intro wid' w hw
    obtain ⟨nm, _, rfl⟩ := List.mem_map.mp hw
    rfl
  have hflat3 : ∀ c ∈ h3.cells, ∀ w ∈ c.watchers, w.isFlat := by
    rw [h3def, connectStoreEffects_eq]
    exact flat_appendWatchers _ c1 _ (flat_subscribeCell h2 c1 wa hflat2)
      (hmeths wa)
  have hflat4 : ∀ c ∈ h4.cells, ∀ w ∈ c.watchers, w.isFlat := by
    rw [h4def, connectStoreEffects_eq]
    exact flat_appendWatchers _ c2 _ (flat_subscribeCell h3 c2 wb hflat3)
      (hmeths wb)
  have hframe := dispatchSeq_frame fuel env store c1 acts h4 c2 hne
    (fun c hc => hflat4 c (mem_of_cell? h4 c1 c hc))
  refine ⟨hne, h3, h4, huseA, huseB, h4v, ?_⟩
  unfold Heap.valueOf
  rw [hframe]

theorem claim8_witness :
    (0 : Nat) ≠ 1 ∧
      ∃ h3 h4,
        Store.use envB nodes8 heap8 0 store8 3 true = .ok (h3, ⟨0, 0⟩) ∧
          Store.use envB nodes8 h3 0 store8 4 true = .ok (h4, ⟨1, 0⟩) ∧
          h4.valueOf 1 = store8.initial ∧
          (dispatchSeq 1 envB store8 0 h4
              [.prim (.pint 5), .prim (.pint 7)]).heap.valueOf 1 =
            h4.valueOf 1 :=
  claim8_theorem 1 envB ⟨[]⟩ ⟨[⟨.prim (.pint 0), [], [], some "counter"⟩]⟩
    heap8 0 1 store8 0 nodes8 3 4 1 2
    ⟨some 0, .storeProvider 0 0, "StoreProvider"⟩
    ⟨some 0, .storeProvider 0 1, "StoreProvider"⟩
    [.prim (.pint 5), .prim (.pint 7)]
    (by simp) rfl rfl rfl rfl rfl rfl rfl rfl
